import Mathlib

/-!
Shallow embedding of the bluebookonline exam application's text-processing,
extraction and answer-resolution logic, together with theorems checking the
natural-language specification against it.

Sources embedded:
- `src/app/exam/[id]/page.tsx` (content classifier, table conversion, sanitizer)
- `src/app/api/upload/analyze/route.ts` (extraction pipeline)
- `src/lib/ai-solve-prompts.ts` (`parseSolveResponse`)
- `src/app/api/exam/complete/route.ts` (completion / answer-resolution pipeline)

JavaScript strings are modelled as Lean `String` (lists of characters); the
inputs at issue are ASCII/BMP so UTF-16 index arithmetic coincides with
character indexing.  JavaScript `\s` is modelled by `Char.isWhitespace`
(space, tab, CR, LF), which agrees with JS on these inputs.  `null`/`undefined`
string parameters are modelled as `Option String`.
-/

namespace BlueBook

/-! ## Basic JS string helpers -/

/-- Auxiliary for `containsSub`: does `needle` occur as a contiguous sublist? -/
def containsSubAux (needle : List Char) : List Char → Bool
  | [] => needle.isPrefixOf ([] : List Char)
  | c :: rest => needle.isPrefixOf (c :: rest) || containsSubAux needle rest

/-- Substring containment, embedding JS `String.prototype.includes`. -/
def containsSub (needle hay : String) : Bool :=
  containsSubAux needle.data hay.data

/-- Number of occurrences of a character, embedding `l.match(/c/g)?.length ?? 0`. -/
def countChar (c : Char) (s : String) : Nat :=
  (s.data.filter (fun x => x = c)).length

/-- ASCII lower-casing (adequate for the embedded inputs; JS `toLowerCase`
additionally folds non-ASCII letters, which no embedded pattern contains). -/
def asciiLower (c : Char) : Char :=
  if 'A' ≤ c ∧ c ≤ 'Z' then Char.ofNat (c.toNat + 32) else c

/-- ASCII upper-casing, embedding JS `toUpperCase` on the inputs at issue. -/
def asciiUpper (c : Char) : Char :=
  if 'a' ≤ c ∧ c ≤ 'z' then Char.ofNat (c.toNat - 32) else c

/-- Embeds JS `String.prototype.trim` (whitespace stripped from both ends). -/
def jsTrim (s : String) : String :=
  String.mk
    (((s.data.dropWhile Char.isWhitespace).reverse.dropWhile Char.isWhitespace).reverse)

/-- Embeds JS `String.prototype.toUpperCase`. -/
def jsUpper (s : String) : String := String.mk (s.data.map asciiUpper)

/-- Embeds JS `String.prototype.startsWith`. -/
def strStartsWith (s pre : String) : Bool := pre.data.isPrefixOf s.data

/-- Embeds JS `String.prototype.endsWith`. -/
def strEndsWith (s suf : String) : Bool := suf.data.reverse.isPrefixOf s.data.reverse

/-- Split on a separator character, keeping empty segments (JS
`s.split("|")`). -/
def splitOnCharAux (sep : Char) : List Char → List Char → List String
  | [], acc => [String.mk acc.reverse]
  | c :: rest, acc =>
    if c = sep then String.mk acc.reverse :: splitOnCharAux sep rest []
    else splitOnCharAux sep rest (c :: acc)

/-- See `splitOnCharAux`. -/
def splitOnChar (sep : Char) (s : String) : List String :=
  splitOnCharAux sep s.data []

/-- Concatenate strings (JS `array.join("")`). -/
def strJoin (l : List String) : String :=
  String.mk (l.foldr (fun s acc => s.data ++ acc) [])

/-- Join strings with a separator (JS `array.join(sep)`). -/
def strIntercalate (sep : String) : List String → String
  | [] => ""
  | [s] => s
  | s :: rest => s ++ sep ++ strIntercalate sep rest

/-- Auxiliary for `jsSplitLines`: split at each `'\n'`, dropping a `'\r'`
immediately preceding it (the separator regex is `/\r?\n/`). The accumulator
holds the current segment reversed. -/
def splitNlAux : List Char → List Char → List String
  | [], acc => [String.mk acc.reverse]
  | c :: rest, acc =>
    if c = '\n' then
      (match acc with
        | '\r' :: t => String.mk t.reverse
        | _ => String.mk acc.reverse) :: splitNlAux rest []
    else splitNlAux rest (c :: acc)

/-- Embeds JS `s.split(/\r?\n/)`. -/
def jsSplitLines (s : String) : List String := splitNlAux s.data []

/-- Embeds the ubiquitous `.map((p) => p.trim()).filter(Boolean)` postfix:
trim each token and drop the empty ones. -/
def trimFilterTokens (l : List String) : List String :=
  (l.map jsTrim).filter (fun x => x ≠ "")

/-- Embeds the regex test `/\s{2,}/.test(l)`: two consecutive whitespace chars. -/
def hasWsRun2 : List Char → Bool
  | a :: b :: rest => (a.isWhitespace && b.isWhitespace) || hasWsRun2 (b :: rest)
  | _ => false

/-- Auxiliary for `jsSplitRuns`.  `acc` is the current token (reversed), `run`
the current pending run of separator-class characters (reversed).  A maximal
run of length `≥ minRun` acts as a separator; a shorter run stays in the
token.  A trailing separator run yields a final empty segment, as JS
`split` does. -/
def splitRunsAux (p : Char → Bool) (minRun : Nat) :
    List Char → List Char → List Char → List String
  | [], acc, run =>
    if run ≠ [] ∧ minRun ≤ run.length then [String.mk acc.reverse, ""]
    else [String.mk (run ++ acc).reverse]
  | c :: rest, acc, run =>
    if p c then splitRunsAux p minRun rest acc (c :: run)
    else if run ≠ [] ∧ minRun ≤ run.length then
      String.mk acc.reverse :: splitRunsAux p minRun rest [c] []
    else splitRunsAux p minRun rest (c :: (run ++ acc)) []

/-- Embeds JS `s.split(re)` where `re` matches maximal runs of length
`≥ minRun` of characters satisfying `p` (used for `/\t+/`, `/\s{2,}/`,
`/\s+/`). -/
def jsSplitRuns (p : Char → Bool) (minRun : Nat) (s : String) : List String :=
  splitRunsAux p minRun s.data [] []

/-- ASCII word character, JS `\w` = `[A-Za-z0-9_]`. -/
def wordChar (c : Char) : Bool := c.isAlphanum || c = '_'

/-- Case-insensitive prefix test (regex `i` flag). -/
def startsWithCI (pat : String) (cs : List Char) : Bool :=
  (pat.data.map asciiLower).isPrefixOf (cs.map asciiLower)

/-- Consume `[^c]*c`: drop characters up to and including the first `c`;
`none` when `c` does not occur. -/
def dropThroughChar (c : Char) : List Char → Option (List Char)
  | [] => none
  | x :: rest => if x = c then some rest else dropThroughChar c rest

/-- Consume lazily up to and including the first case-insensitive occurrence
of `pat`; `none` when it does not occur. -/
def dropThroughSubCI (pat : String) : List Char → Option (List Char)
  | [] => none
  | c :: rest =>
    if startsWithCI pat (c :: rest) then some ((c :: rest).drop pat.length)
    else dropThroughSubCI pat rest

/-! ## Content classifier (`src/app/exam/[id]/page.tsx`) -/

/-- Embeds `isSvgContent`. -/
def isSvgContent (text : Option String) : Bool :=
  match text with
  | none => false
  | some s =>
    if (jsTrim s) = "" then false
    else
      let t := (jsTrim s)
      strStartsWith t "<svg" || containsSub "<svg" t

/-- Embeds `isTableHtml`. -/
def isTableHtml (text : Option String) : Bool :=
  match text with
  | none => false
  | some s =>
    if (jsTrim s) = "" then false
    else
      let t := (jsTrim s)
      containsSub "<table" t && containsSub "</table>" t

/-- Embeds the delimiter-mode union type `"tab" | "spaces2" | "space1" | "pipe"`. -/
inductive TableSplitMode where
  | tab | spaces2 | space1 | pipe
deriving DecidableEq, Repr

/-- Embeds `splitTableRow`. -/
def splitTableRow (line : String) (mode : TableSplitMode) : List String :=
  match mode with
  | .pipe => trimFilterTokens (splitOnChar '|' line)
  | .tab => trimFilterTokens (jsSplitRuns (fun c => c = '\t') 1 line)
  | .spaces2 => trimFilterTokens (jsSplitRuns Char.isWhitespace 2 line)
  | .space1 => trimFilterTokens (jsSplitRuns Char.isWhitespace 1 line)

/-- Embeds `isPipeSeparatorRow`: every cell matches `/^[-:\s]+$/`. -/
def isPipeSeparatorRow (cells : List String) : Bool :=
  decide (1 ≤ cells.length) &&
    cells.all (fun c =>
      c ≠ "" && c.data.all (fun ch => ch = '-' || ch = ':' || ch.isWhitespace))

/-- Embeds `getTableSplitMode`. -/
def getTableSplitMode (lines : List String) : TableSplitMode :=
  let pipeRows := lines.map (fun l => splitTableRow l .pipe)
  let dataRows := pipeRows.filter
    (fun r => decide (2 ≤ r.length) && !(isPipeSeparatorRow r))
  let colCount := (dataRows.headD []).length
  if 2 ≤ dataRows.length ∧
      dataRows.all (fun r => r.length = colCount) ∧
      lines.any (fun l => 2 ≤ countChar '|' l) then .pipe
  else if lines.any (fun l => l.data.contains '\t') then .tab
  else if lines.any (fun l => hasWsRun2 l.data) then .spaces2
  else .space1

/-- Embeds `(jsTrim text)().split(/\r?\n/).map((l) => l.trim()).filter(Boolean)`. -/
def linesOf (s : String) : List String :=
  trimFilterTokens (jsSplitLines (jsTrim s))

/-- Embeds `looksLikeTableText`. -/
def looksLikeTableText (text : Option String) : Bool :=
  match text with
  | none => false
  | some s =>
    if (jsTrim s) = "" then false
    else if isTableHtml (some s) then false
    else
      let lines := linesOf s
      if lines.length < 2 then false
      else
        let mode := getTableSplitMode lines
        let rows := lines.map (fun l => splitTableRow l mode)
        let dataRows :=
          if mode = .pipe then
            rows.filter (fun r => decide (2 ≤ r.length) && !(isPipeSeparatorRow r))
          else rows
        if dataRows.length < 2 ∨ dataRows.any (fun r => r.length < 2) then false
        else
          let colCount := (dataRows.headD []).length
          !(dataRows.any (fun r => r.length ≠ colCount))

/-- Embeds `escapeHtml`.  The source applies four sequential global
replacements (`&`, `<`, `>`, `"`); since no replacement string contains a
character replaced by a later pass acting on original text, the composition
is the character-wise map below. -/
def escapeHtmlChar (c : Char) : String :=
  if c = '&' then "&amp;"
  else if c = '<' then "&lt;"
  else if c = '>' then "&gt;"
  else if c = '"' then "&quot;"
  else String.mk [c]

/-- Embeds `escapeHtml`. -/
def escapeHtml (s : String) : String :=
  strJoin (s.data.map escapeHtmlChar)

/-- Embeds `plainTextToTableHtml`. -/
def plainTextToTableHtml (text : String) : String :=
  let lines := linesOf text
  if lines.length = 0 then ""
  else
    let mode := getTableSplitMode lines
    let rows := lines.map (fun l => splitTableRow l mode)
    let dataRows :=
      if mode = .pipe then
        rows.filter (fun r => decide (2 ≤ r.length) && !(isPipeSeparatorRow r))
      else rows
    let thead :=
      if 0 < dataRows.length then
        "<thead><tr>" ++
          strJoin ((dataRows.headD []).map
            (fun c => "<th>" ++ escapeHtml c ++ "</th>")) ++ "</tr></thead>"
      else ""
    let tbody :=
      if 1 < dataRows.length then
        "<tbody>" ++
          strJoin ((dataRows.drop 1).map (fun row =>
            "<tr>" ++
              strJoin (row.map (fun c => "<td>" ++ escapeHtml c ++ "</td>")) ++
            "</tr>")) ++ "</tbody>"
      else ""
    "<table>" ++ thead ++ tbody ++ "</table>"

/-! ## Table-HTML sanitizer (`sanitizeTableHtml`)

Three global regex replacements.  Each is embedded as a leftmost,
non-overlapping scan; all three patterns begin with `<`, so trying a match at
every position is equivalent to trying at every `<`. -/

/-- Match `<script\b[^>]*>[\s\S]*?<\/script>` (flags `gi`) at the head of the
list; returns the remainder after the match. -/
def matchScript (cs : List Char) : Option (List Char) :=
  if startsWithCI "<script" cs then
    let after := cs.drop 7
    match after with
    | [] => none
    | c :: _ =>
      if wordChar c then none
      else
        match dropThroughChar '>' after with
        | none => none
        | some body => dropThroughSubCI "</script>" body
  else none

/-- The whitelist of the second replacement, in source alternation order. -/
def whitelistTags : List String := ["table", "thead", "tbody", "tr", "th", "td"]

/-- Embeds `(\s[^>]*)?>` after a tag name: either `>` immediately, or one
whitespace char, then `[^>]*`, then `>`. -/
def matchTagAfterName (cs : List Char) : Option (List Char) :=
  match cs with
  | [] => none
  | c :: rest =>
    if c = '>' then some rest
    else if c.isWhitespace then dropThroughChar '>' rest
    else none

/-- Ordered alternation over the whitelisted tag names (case-insensitive),
capturing the tag text as it appears in the input. -/
def tryTags : List String → List Char → Option (String × List Char)
  | [], _ => none
  | t :: ts, cs =>
    if startsWithCI t cs then
      match matchTagAfterName (cs.drop t.length) with
      | some rest => some (String.mk (cs.take t.length), rest)
      | none => tryTags ts cs
    else tryTags ts cs

/-- Match `<\/?(table|thead|tbody|tr|th|td)(\s[^>]*)?>` (flags `gi`) at the
head; returns the replacement `</tag>`/`<tag>` (attributes stripped, tag case
preserved, as the source's replacer builds it) and the remainder. -/
def matchWhitelistTag (cs : List Char) : Option (String × List Char) :=
  match cs with
  | '<' :: '/' :: rest =>
    (tryTags whitelistTags rest).map (fun p => ("</" ++ p.1 ++ ">", p.2))
  | '<' :: rest =>
    (tryTags whitelistTags rest).map (fun p => ("<" ++ p.1 ++ ">", p.2))
  | _ => none

/-- Match `<\/?[a-zA-Z][a-zA-Z0-9]*\b[^>]*>` at the head; returns the
remainder.  After the maximal alphanumeric run the next character is
non-alphanumeric, so the word boundary `\b` fails only on `'_'`. -/
def matchAnyTagAt (cs : List Char) : Option (List Char) :=
  match cs with
  | '<' :: rest =>
    let rest2 := match rest with
      | '/' :: r => r
      | _ => rest
    match rest2 with
    | [] => none
    | c :: r3 =>
      if c.isAlpha then
        let r4 := r3.dropWhile Char.isAlphanum
        match r4 with
        | '_' :: _ => none
        | _ => dropThroughChar '>' r4
      else none
  | _ => none

/-- One global replacement pass: leftmost, non-overlapping; the matcher emits
the replacement text and the remainder.  Every matcher consumes at least one
character, so fuel equal to the input length suffices. -/
def replacePass (matcher : List Char → Option (String × List Char)) :
    Nat → List Char → List Char
  | 0, cs => cs
  | _ + 1, [] => []
  | fuel + 1, c :: rest =>
    match matcher (c :: rest) with
    | some (emit, rest') => emit.data ++ replacePass matcher fuel rest'
    | none => c :: replacePass matcher fuel rest

/-- Run one global replacement pass over a string. -/
def runPass (matcher : List Char → Option (String × List Char)) (s : String) :
    String :=
  String.mk (replacePass matcher s.data.length s.data)

/-- Embeds `sanitizeTableHtml`: trim, strip script blocks, normalize the
whitelisted table tags (attributes stripped), then apply the final
tag-stripping replacement. -/
def sanitizeTableHtml (html : String) : String :=
  let s0 := (jsTrim html)
  let s1 := runPass (fun cs => (matchScript cs).map (fun rest => ("", rest))) s0
  let s2 := runPass matchWhitelistTag s1
  runPass (fun cs => (matchAnyTagAt cs).map (fun rest => ("", rest))) s2

/-! ## Question-stem classifier (`looksLikeQuestionStem`) -/

/-- Embeds `/^\s*[IVX]+\.\s/.test(l)`. -/
def isRomanListLine (l : String) : Bool :=
  let cs := l.data.dropWhile Char.isWhitespace
  let isRoman := fun (c : Char) => c = 'I' || c = 'V' || c = 'X'
  let run := cs.takeWhile isRoman
  let rest := cs.dropWhile isRoman
  run ≠ [] &&
    (match rest with
      | '.' :: w :: _ => w.isWhitespace
      | _ => false)

/-- Embeds `/^\s*\d+\.\s/.test(l)`. -/
def isArabicListLine (l : String) : Bool :=
  let cs := l.data.dropWhile Char.isWhitespace
  let run := cs.takeWhile Char.isDigit
  let rest := cs.dropWhile Char.isDigit
  run ≠ [] &&
    (match rest with
      | '.' :: w :: _ => w.isWhitespace
      | _ => false)

/-- Embeds `/^(Which|What|How|Consider)\s/i.test(t)`.  The four alternatives
are mutually exclusive at any given position, so unordered disjunction
matches the regex's ordered alternation. -/
def startsWithInterrogative (t : String) : Bool :=
  ["which", "what", "how", "consider"].any (fun w =>
    startsWithCI w t.data &&
      (match t.data.drop w.length with
        | c :: _ => c.isWhitespace
        | [] => false))

/-- Embeds `looksLikeQuestionStem`. -/
def looksLikeQuestionStem (text : Option String) : Bool :=
  match text with
  | none => false
  | some s =>
    if (jsTrim s) = "" then false
    else
      let t := (jsTrim s)
      if isTableHtml (some t) || looksLikeTableText (some t) || isSvgContent (some t) then
        false
      else
        let lines := trimFilterTokens (jsSplitLines t)
        let listLikeLines := lines.filter (fun l => isRomanListLine l || isArabicListLine l)
        if 2 ≤ listLikeLines.length ∨ (2 ≤ lines.length ∧ 1 ≤ listLikeLines.length) then
          false
        else
          let singleOrShort := decide (lines.length ≤ 3) && decide (t.length < 600)
          let endsWithQ := strEndsWith t "?"
          let startsWithQuestion := startsWithInterrogative t
          singleOrShort && (endsWithQ || startsWithQuestion)

/-! ## JSON values and `JSON.parse`

Model of the JSON values flowing out of `JSON.parse`.  Numbers carry their
source lexeme; JavaScript's canonical re-formatting of numbers (`String(1.50)
= "1.5"` etc.) is not modelled — no embedded function's claimed behaviour
depends on numeric formatting, only on whether a rendered value is a letter
A–E or blank, which a numeric lexeme never is. -/

inductive JVal where
  | jnull
  | jbool (b : Bool)
  | jnum (lexeme : String)
  | jstr (s : String)
  | jarr (elems : List JVal)
  | jobj (fields : List (String × JVal))

/-- JSON whitespace (space, tab, LF, CR — exactly what `JSON.parse` skips). -/
def jsonWs (c : Char) : Bool := c = ' ' || c = '\t' || c = '\n' || c = '\r'

/-- Skip JSON whitespace. -/
def skipJsonWs (cs : List Char) : List Char := cs.dropWhile jsonWs

/-- Hex digit value. -/
def hexVal (c : Char) : Option Nat :=
  if '0' ≤ c ∧ c ≤ '9' then some (c.toNat - '0'.toNat)
  else if 'a' ≤ c ∧ c ≤ 'f' then some (c.toNat - 'a'.toNat + 10)
  else if 'A' ≤ c ∧ c ≤ 'F' then some (c.toNat - 'A'.toNat + 10)
  else none

/-- Parse the body of a JSON string after the opening quote.  Standard escape
sequences are handled; `\uXXXX` yields the code point directly (surrogate
pairing is not modelled; no embedded input uses it).  Unescaped control
characters are rejected, as in `JSON.parse`. -/
def parseStrBody : Nat → List Char → List Char → Option (String × List Char)
  | 0, _, _ => none
  | _ + 1, _, [] => none
  | fuel + 1, acc, c :: rest =>
    if c = '"' then some (String.mk acc.reverse, rest)
    else if c = '\\' then
      match rest with
      | [] => none
      | e :: rest2 =>
        if e = '"' then parseStrBody fuel ('"' :: acc) rest2
        else if e = '\\' then parseStrBody fuel ('\\' :: acc) rest2
        else if e = '/' then parseStrBody fuel ('/' :: acc) rest2
        else if e = 'b' then parseStrBody fuel (Char.ofNat 8 :: acc) rest2
        else if e = 'f' then parseStrBody fuel (Char.ofNat 12 :: acc) rest2
        else if e = 'n' then parseStrBody fuel ('\n' :: acc) rest2
        else if e = 'r' then parseStrBody fuel ('\r' :: acc) rest2
        else if e = 't' then parseStrBody fuel ('\t' :: acc) rest2
        else if e = 'u' then
          match rest2 with
          | h1 :: h2 :: h3 :: h4 :: rest3 =>
            match hexVal h1, hexVal h2, hexVal h3, hexVal h4 with
            | some a, some b, some c2, some d =>
              parseStrBody fuel (Char.ofNat (((a * 16 + b) * 16 + c2) * 16 + d) :: acc) rest3
            | _, _, _, _ => none
          | _ => none
        else none
    else if c.toNat < 32 then none
    else parseStrBody fuel (c :: acc) rest

/-- Parse a JSON number, returning its lexeme (strict JSON grammar:
`-? (0 | [1-9][0-9]*) (\.[0-9]+)? ([eE][+-]?[0-9]+)?`). -/
def parseJNum (cs : List Char) : Option (String × List Char) :=
  let (sgn, cs1) :=
    match cs with
    | '-' :: r => (['-'], r)
    | _ => ([], cs)
  let intPart : Option (List Char × List Char) :=
    match cs1 with
    | '0' :: r => some (['0'], r)
    | c :: _ =>
      if c.isDigit then some (cs1.takeWhile Char.isDigit, cs1.dropWhile Char.isDigit)
      else none
    | [] => none
  match intPart with
  | none => none
  | some (ip, cs2) =>
    let fracPart : Option (List Char × List Char) :=
      match cs2 with
      | '.' :: r =>
        let ds := r.takeWhile Char.isDigit
        if ds = [] then none else some ('.' :: ds, r.dropWhile Char.isDigit)
      | _ => some ([], cs2)
    match fracPart with
    | none => none
    | some (fp, cs3) =>
      let expPart : Option (List Char × List Char) :=
        match cs3 with
        | e :: r =>
          if e = 'e' ∨ e = 'E' then
            let (es, r2) :=
              match r with
              | s :: r2 => if s = '+' ∨ s = '-' then ([e, s], r2) else ([e], r)
              | [] => ([e], r)
            let ds := r2.takeWhile Char.isDigit
            if ds = [] then none else some (es ++ ds, r2.dropWhile Char.isDigit)
          else some ([], cs3)
        | [] => some ([], cs3)
      match expPart with
      | none => none
      | some (ep, cs4) => some (String.mk (sgn ++ ip ++ fp ++ ep), cs4)

mutual

/-- Parse one JSON value (recursive descent; the fuel bounds nesting and is
chosen larger than any input could need). -/
def parseJVal : Nat → List Char → Option (JVal × List Char)
  | 0, _ => none
  | fuel + 1, cs =>
    let cs := skipJsonWs cs
    match cs with
    | '{' :: rest =>
      (match skipJsonWs rest with
        | '}' :: rest2 => some (.jobj [], rest2)
        | _ => parseJObjItems fuel rest [])
    | '[' :: rest =>
      (match skipJsonWs rest with
        | ']' :: rest2 => some (.jarr [], rest2)
        | _ => parseJArrItems fuel rest [])
    | '"' :: rest =>
      (parseStrBody (rest.length + 1) [] rest).map (fun p => (.jstr p.1, p.2))
    | 't' :: rest =>
      if rest.take 3 = ['r', 'u', 'e'] then some (.jbool true, rest.drop 3) else none
    | 'f' :: rest =>
      if rest.take 4 = ['a', 'l', 's', 'e'] then some (.jbool false, rest.drop 4) else none
    | 'n' :: rest =>
      if rest.take 3 = ['u', 'l', 'l'] then some (.jnull, rest.drop 3) else none
    | _ => (parseJNum cs).map (fun p => (.jnum p.1, p.2))

/-- Parse the comma-separated items of a JSON array (after `[`, first item
pending). -/
def parseJArrItems : Nat → List Char → List JVal → Option (JVal × List Char)
  | 0, _, _ => none
  | fuel + 1, cs, acc =>
    match parseJVal fuel cs with
    | none => none
    | some (v, rest) =>
      match skipJsonWs rest with
      | ']' :: rest2 => some (.jarr (acc ++ [v]), rest2)
      | ',' :: rest2 => parseJArrItems fuel rest2 (acc ++ [v])
      | _ => none

/-- Parse the comma-separated fields of a JSON object (after `{`, first field
pending). -/
def parseJObjItems : Nat → List Char → List (String × JVal) →
    Option (JVal × List Char)
  | 0, _, _ => none
  | fuel + 1, cs, acc =>
    match skipJsonWs cs with
    | '"' :: rest =>
      match parseStrBody (rest.length + 1) [] rest with
      | none => none
      | some (key, rest2) =>
        match skipJsonWs rest2 with
        | ':' :: rest3 =>
          match parseJVal fuel rest3 with
          | none => none
          | some (v, rest4) =>
            match skipJsonWs rest4 with
            | '}' :: rest5 => some (.jobj (acc ++ [(key, v)]), rest5)
            | ',' :: rest5 => parseJObjItems fuel rest5 (acc ++ [(key, v)])
            | _ => none
        | _ => none
    | _ => none

end

/-- Embeds `JSON.parse`: parse one value and require only whitespace after. -/
def jsonParse (s : String) : Option JVal :=
  match parseJVal (2 * s.data.length + 4) s.data with
  | some (v, rest) => if skipJsonWs rest = [] then some v else none
  | none => none

mutual

/-- Embeds JS `String(v)` on a JSON value: `null ↦ "null"`, booleans to their
words, numbers to their lexeme, arrays joined with `","` (with `null`
elements rendered as `""`), objects to `"[object Object]"`. -/
def jsToString : JVal → String
  | .jnull => "null"
  | .jbool true => "true"
  | .jbool false => "false"
  | .jnum lx => lx
  | .jstr s => s
  | .jarr xs => strIntercalate "," (jsToStringElems xs)
  | .jobj _ => "[object Object]"

/-- Render array elements for `Array.prototype.toString` (`null ↦ ""`). -/
def jsToStringElems : List JVal → List String
  | [] => []
  | .jnull :: rest => "" :: jsToStringElems rest
  | v :: rest => jsToString v :: jsToStringElems rest

end

/-- Embeds JS `String(a ?? "")`: `null`/`undefined` coalesce to `""`. -/
def jsStringOrEmpty : JVal → String
  | .jnull => ""
  | v => jsToString v

/-! ## `parseSolveResponse` (`src/lib/ai-solve-prompts.ts`) -/

/-- The `valid` list of `parseSolveResponse` (also `VALID_ANSWERS` of the
completion route). -/
def validLetters : List String := ["A", "B", "C", "D", "E"]

/-- Prefix of the list up to and including the first occurrence of `c`. -/
def takeThroughChar (c : Char) : List Char → Option (List Char)
  | [] => none
  | x :: rest =>
    if x = c then some [x] else (takeThroughChar c rest).map (fun t => x :: t)

/-- Embeds `cleaned.match(/\[[\s\S]*?\]/)`: the first `'['` through the first
`']'` after it (lazy body, leftmost match). -/
def firstBracketMatch : List Char → Option (List Char)
  | [] => none
  | c :: rest =>
    if c = '[' then (takeThroughChar ']' rest).map (fun t => '[' :: t)
    else firstBracketMatch rest

/-- The quote characters of the fallback scan's `["']` class. -/
def isQuote (c : Char) : Bool := c = '"' || c = Char.ofNat 39

/-- The `[A-E]` class (uppercase only; the regex has no `i` flag). -/
def isSolveLetter (c : Char) : Bool := 'A' ≤ c && c ≤ 'E'

/-- Embeds the global scan `cleaned.match(/["']?([A-E])["']?/g)`: at each
position, an optional quote, a letter A–E, then greedily an optional trailing
quote; returns the matched substrings in order (leftmost, non-overlapping).
Each step consumes at least one character, so fuel = input length suffices. -/
def letterScan : Nat → List Char → List String
  | 0, _ => []
  | _ + 1, [] => []
  | fuel + 1, c :: rest =>
    if isQuote c then
      match rest with
      | [] => []
      | l :: rest2 =>
        if isSolveLetter l then
          match rest2 with
          | q2 :: rest3 =>
            if isQuote q2 then String.mk [c, l, q2] :: letterScan fuel rest3
            else String.mk [c, l] :: letterScan fuel rest2
          | [] => [String.mk [c, l]]
        else letterScan fuel rest
    else if isSolveLetter c then
      match rest with
      | q2 :: rest2 =>
        if isQuote q2 then String.mk [c, q2] :: letterScan fuel rest2
        else String.mk [c] :: letterScan fuel rest
      | [] => [String.mk [c]]
    else letterScan fuel rest

/-- Embeds `m.replace(/["']/g, "")`. -/
def stripQuotes (s : String) : String :=
  String.mk (s.data.filter (fun c => !(isQuote c)))

/-- The per-element mapping of the JSON arm of `parseSolveResponse`:
`String(a ?? "").toUpperCase().trim()`, kept only when it is a letter A–E. -/
def solveLetterOfJson (a : JVal) : Option String :=
  let s := jsTrim (jsUpper (jsStringOrEmpty a))
  if s ∈ validLetters then some s else none

/-- The per-element mapping of the fallback arm of `parseSolveResponse`:
quotes stripped from the match, upper-cased, kept only when a letter A–E. -/
def solveLetterOfMatch (m : String) : Option String :=
  let s := jsUpper (stripQuotes m)
  if s ∈ validLetters then some s else none

/-- Embeds `parseSolveResponse`. -/
def parseSolveResponse (text : String) (expectedCount : Nat) :
    List (Option String) :=
  let cleaned := jsTrim text
  let jsonArm : Option (List (Option String)) :=
    match firstBracketMatch cleaned.data with
    | none => none
    | some mcs =>
      match jsonParse (String.mk mcs) with
      | some (.jarr arr) => some ((arr.take expectedCount).map solveLetterOfJson)
      | _ => none
  match jsonArm with
  | some r => r
  | none =>
    let letterMatch := letterScan cleaned.data.length cleaned.data
    if letterMatch ≠ [] then
      (letterMatch.take expectedCount).map solveLetterOfMatch
    else List.replicate expectedCount none

/-! ## Extraction helpers (`src/app/api/upload/analyze/route.ts`) -/

/-- Embeds `normalizeCorrect`: `null`/`undefined` stay unknown; otherwise the
value is rendered, upper-cased and trimmed, and kept only when it is one of
A–E. -/
def normalizeCorrect (value : Option JVal) : Option String :=
  match value with
  | none => none
  | some .jnull => none
  | some v =>
    let s := jsTrim (jsUpper (jsToString v))
    if s ∈ validLetters then some s else none

/-- The five named option slots produced by `optionsToColumns`. -/
structure OptionColumns where
  option_a : Option String
  option_b : Option String
  option_c : Option String
  option_d : Option String
  option_e : Option String
deriving DecidableEq, Repr

/-- Embeds the JS idiom `x || null` on an optional string (`""` and a missing
index are falsy). -/
def blankToNull (s : Option String) : Option String :=
  match s with
  | some t => if t = "" then none else some t
  | none => none

/-- The per-entry rendering `o != null ? String(o).trim() : ""` of
`optionsToColumns`. -/
def optionEntryRender (o : JVal) : String :=
  match o with
  | .jnull => ""
  | v => jsTrim (jsToString v)

/-- Embeds `optionsToColumns`. -/
def optionsToColumns (options : Option JVal) : OptionColumns :=
  let arr :=
    match options with
    | some (.jarr xs) => xs
    | _ => []
  let strings := arr.map optionEntryRender
  { option_a := blankToNull (strings.get? 0)
    option_b := blankToNull (strings.get? 1)
    option_c := blankToNull (strings.get? 2)
    option_d := blankToNull (strings.get? 3)
    option_e := blankToNull (strings.get? 4) }

/-! ### `stripQuestionFromCode`

The source matches
`/\n?\s*(Which\s+.+\?|What\s+(?:is|does|will|would)\s+.+\?|\.\s+\d+\.\s+.+\?)(\s*)$/is`
against the trimmed code.  Because every alternative ends with `.+\?` (dotall)
followed by `(\s*)$`, a match can only end at the last `'?'` of the text whose
suffix is entirely whitespace; and because `\n?\s*` may be empty, the captured
group starts at the smallest position where one alternative matches.  The
fallback `/\n([^\n]*\?)\s*$/` similarly ends at that same `'?'` and starts
after the last newline preceding it. -/

/-- The unique index `e` with `cs[e] = '?'` and everything after whitespace,
when it exists. -/
def lastQMarkIndexAux : List Char → Nat → Option Nat → Option Nat
  | [], _, best => best
  | c :: rest, i, best =>
    lastQMarkIndexAux rest (i + 1)
      (if c = '?' ∧ rest.all Char.isWhitespace then some i else best)

/-- See `lastQMarkIndexAux`. -/
def lastQMarkIndex (cs : List Char) : Option Nat := lastQMarkIndexAux cs 0 none

/-- Is the character at index `i` whitespace? -/
def isWsAt (cs : List Char) (i : Nat) : Bool :=
  match cs.get? i with
  | some c => c.isWhitespace
  | none => false

/-- First index `≥ i` holding a non-whitespace character (or the length). -/
def skipWsFrom (cs : List Char) (i : Nat) : Nat :=
  i + ((cs.drop i).takeWhile Char.isWhitespace).length

/-- First index `≥ i` holding a non-digit character (or the length). -/
def skipDigitsFrom (cs : List Char) (i : Nat) : Nat :=
  i + ((cs.drop i).takeWhile Char.isDigit).length

/-- Case-insensitive prefix test at index `i`. -/
def startsWithCIAt (pat : String) (cs : List Char) (i : Nat) : Bool :=
  startsWithCI pat (cs.drop i)

/-- Does one alternative of the trailing-question pattern match at content
position `c`, ending at the question mark at `e`?  (`i`-flag: alternatives
are case-insensitive; `s`-flag: `.` spans newlines, so the middle portion is
unconstrained.) -/
def altMatchAt (cs : List Char) (e c : Nat) : Bool :=
  (startsWithCIAt "which" cs c && isWsAt cs (c + 5) && decide (c + 7 ≤ e)) ||
  (startsWithCIAt "what" cs c && isWsAt cs (c + 4) &&
    (let k := skipWsFrom cs (c + 4)
     ["is", "does", "will", "would"].any (fun kw =>
       startsWithCIAt kw cs k && isWsAt cs (k + kw.length) &&
         decide (k + kw.length + 2 ≤ e)))) ||
  ((cs.get? c == some '.') && isWsAt cs (c + 1) &&
    (let k1 := skipWsFrom cs (c + 1)
     (match cs.get? k1 with
       | some ch => ch.isDigit
       | none => false) &&
     (let k2 := skipDigitsFrom cs k1
      (cs.get? k2 == some '.') && isWsAt cs (k2 + 1) && decide (k2 + 3 ≤ e))))

/-- The characters at indices `start..stop` (inclusive). -/
def subListIdx (cs : List Char) (start stop : Nat) : List Char :=
  (cs.drop start).take (stop + 1 - start)

/-- Index of the first occurrence of `needle` (embeds `String.prototype.indexOf`). -/
def firstIndexOfSubAux (needle : List Char) : List Char → Nat → Option Nat
  | [], i => if needle = [] then some i else none
  | c :: rest, i =>
    if needle.isPrefixOf (c :: rest) then some i
    else firstIndexOfSubAux needle rest (i + 1)

/-- See `firstIndexOfSubAux`. -/
def firstIndexOfSub (needle hay : List Char) : Option Nat :=
  firstIndexOfSubAux needle hay 0

/-- Index of the last occurrence of `needle` (embeds `String.prototype.lastIndexOf`). -/
def lastIndexOfSub (needle hay : List Char) : Option Nat :=
  ((List.range (hay.length + 1)).filter
    (fun i => needle.isPrefixOf (hay.drop i))).getLast?

/-- Index of the last occurrence of `c` strictly before index `e`. -/
def lastIdxOfCharBefore (c : Char) (cs : List Char) (e : Nat) : Option Nat :=
  ((List.range e).filter (fun i => cs.get? i == some c)).getLast?

/-- Result shape of `stripQuestionFromCode`. -/
structure StrippedCode where
  codeOnly : Option String
  strippedQuestion : Option String
deriving DecidableEq, Repr

/-- Embeds `stripQuestionFromCode`. -/
def stripQuestionFromCode (code : Option String) : StrippedCode :=
  match code with
  | none => { codeOnly := none, strippedQuestion := none }
  | some raw =>
    if (jsTrim raw) = "" then { codeOnly := none, strippedQuestion := none }
    else
      let t := (jsTrim raw)
      let cs := t.data
      match lastQMarkIndex cs with
      | some e =>
        match (List.range e).find? (fun c => altMatchAt cs e c) with
        | some c =>
          let gs := String.mk (subListIdx cs c e)
          let idx := (firstIndexOfSub gs.data cs).getD 0
          let codeOnly := jsTrim (String.mk (cs.take idx))
          { codeOnly := blankToNull (some codeOnly)
            strippedQuestion := blankToNull (some (jsTrim gs)) }
        | none =>
          match lastIdxOfCharBefore '\n' cs e with
          | some p =>
            let gs := String.mk (subListIdx cs (p + 1) e)
            let idx := (lastIndexOfSub gs.data cs).getD 0
            let codeOnly := jsTrim (String.mk (cs.take idx))
            { codeOnly := blankToNull (some codeOnly)
              strippedQuestion := some (jsTrim gs) }
          | none => { codeOnly := some t, strippedQuestion := none }
      | none => { codeOnly := some t, strippedQuestion := none }

/-- Embeds `isPlaceholderText`. -/
def isPlaceholderText (text : Option String) : Bool :=
  match text with
  | none => true
  | some s =>
    let t := (jsTrim s)
    if t.length < 3 then true
    else if t ≠ "" ∧ t.data.all Char.isDigit then true
    else if t = "geriye dönük uyumluluk için" then true
    else false

/-! ### `parseJsonFromResponse` -/

/-- The backtick character. -/
def btick : Char := Char.ofNat 96

/-- Is `p` the start of a line (for the regex `m` flag)? -/
def isLineStart (cs : List Char) (p : Nat) : Bool :=
  decide (p = 0) || (cs.get? (p - 1) == some '\n')

/-- Is there a triple-backtick fence at index `p`? -/
def fenceAt (cs : List Char) (p : Nat) : Bool :=
  (cs.drop p).take 3 = [btick, btick, btick]

/-- After a closing fence at `q`, `\s*$` (with the `m` flag) succeeds iff the
maximal whitespace run after the fence reaches the end of the string or
contains a newline. -/
def fenceCloseOk (cs : List Char) (q : Nat) : Bool :=
  let tail := cs.drop (q + 3)
  let run := tail.takeWhile Char.isWhitespace
  decide (run.length = tail.length) || run.contains '\n'

/-- For an opening fence at `p`: skip an optional `json` tag, then find the
earliest closing fence with a valid `\s*$` suffix; returns the captured body
(the subsequent `.trim()` of the caller absorbs the `\s*` between the tag and
the body). -/
def fenceBodyClose (cs : List Char) (p : Nat) : Option String :=
  let b0 := if (cs.drop (p + 3)).take 4 = ['j', 's', 'o', 'n'] then p + 7 else p + 3
  ((List.range (cs.length + 1)).find?
    (fun q => decide (b0 ≤ q) && fenceAt cs q && fenceCloseOk cs q)).map
    (fun q => String.mk ((cs.drop b0).take (q - b0)))

/-- Embeds the fence-stripping `text.match(/^```(?:json)?\s*([\s\S]*?)```\s*$/m)`:
the leftmost line-start opening fence that admits a valid closing fence, and
its captured body. -/
def stripCodeFence (text : String) : Option String :=
  let cs := text.data
  ((List.range (cs.length + 1)).find?
    (fun p => isLineStart cs p && fenceAt cs p && (fenceBodyClose cs p).isSome)).bind
    (fun p => fenceBodyClose cs p)

/-- Embeds `parseJsonFromResponse`: strip one fenced wrapper if present, then
`JSON.parse`; a parse failure is a thrown exception (`.error`), a non-array
value yields `[]`. -/
def parseJsonFromResponse (raw : String) : Except Unit (List JVal) :=
  let text := (jsTrim raw)
  let text :=
    match stripCodeFence text with
    | some inner => (jsTrim inner)
    | none => text
  match jsonParse text with
  | none => .error ()
  | some (.jarr xs) => .ok xs
  | some _ => .ok []

/-! ## Extraction pipeline state machine (`POST` of `upload/analyze/route.ts`)

The request, the model response and the data store's behaviour on each write
are inputs; the handler is a pure function from them and the current store
contents to an HTTP-level result and the new store contents.  A failing
insert is atomic (inserts nothing), matching the store's per-statement
semantics. -/

/-- The five recognized subjects (`SUBJECT_KEYS` of `lib/gemini-prompts.ts`). -/
def SUBJECT_KEYS : List String :=
  ["AP_CSA", "AP_MICROECONOMICS", "AP_MACROECONOMICS", "AP_PSYCHOLOGY", "AP_STATISTICS"]

/-- `MAX_FILE_BYTES = 50 * 1024 * 1024`. -/
def MAX_FILE_BYTES : Nat := 50 * 1024 * 1024

/-- Embeds JS `parseInt(s, 10)`: skip leading whitespace, optional sign, then
a (possibly empty ⇒ NaN ⇒ `none`) digit prefix.  (Float precision loss on
astronomically large counts is not modelled.) -/
def parseIntJs (s : String) : Option Int :=
  let cs := s.data.dropWhile Char.isWhitespace
  let (neg, cs1) :=
    match cs with
    | '-' :: r => (true, r)
    | '+' :: r => (false, r)
    | _ => (false, cs)
  let ds := cs1.takeWhile Char.isDigit
  if ds = [] then none
  else
    let n : Nat := ds.foldl (fun acc c => acc * 10 + (c.toNat - '0'.toNat)) 0
    some (if neg then -(n : Int) else (n : Int))

/-- Property access `q.key` on a parsed JSON value: objects look the key up
(last duplicate wins, as in `JSON.parse`), `null` throws a `TypeError`,
other primitives yield `undefined` (`none`). -/
def getField (v : JVal) (key : String) : Except String (Option JVal) :=
  match v with
  | .jobj fields =>
    .ok ((fields.reverse.find? (fun p => p.1 == key)).map (fun p => p.2))
  | .jnull => .error "TypeError"
  | _ => .ok none

/-- Embeds a `??` chain over fields of `q`: the first field that is neither
`undefined` nor `null`. -/
def coalesceFields (q : JVal) : List String → Except String (Option JVal)
  | [] => .ok none
  | k :: rest => do
    let f ← getField q k
    match f with
    | some .jnull => coalesceFields q rest
    | some v => .ok (some v)
    | none => coalesceFields q rest

/-- JS `.trim()` on a JSON value: a `TypeError` unless it is a string.  (The
thrown message text is abstracted as `"TypeError"`; only the fact of the
throw is observable through the route's catch-all.) -/
def jsTrimOrThrow : JVal → Except String String
  | .jstr s => .ok (jsTrim s)
  | _ => .error "TypeError"

/-- The integer value of JS `Number(v)` when `Number.isInteger(Number(v))`
holds, for the value shapes a parsed JSON `page_number` can take.  Exponent
lexemes and array/object coercion are not modelled (no claim concerns
`page_number`). -/
def jsIntOfLexeme (cs : List Char) : Option Int :=
  let (neg, cs1) :=
    match cs with
    | '-' :: r => (true, r)
    | '+' :: r => (false, r)
    | _ => (false, cs)
  let ds := cs1.takeWhile Char.isDigit
  let rest := cs1.dropWhile Char.isDigit
  if ds = [] then none
  else
    let fracOk :=
      match rest with
      | [] => true
      | '.' :: fr => fr ≠ [] ∧ fr.all (fun c => c = '0')
      | _ => false
    if fracOk then
      let n : Nat := ds.foldl (fun acc c => acc * 10 + (c.toNat - '0'.toNat)) 0
      some (if neg then -(n : Int) else (n : Int))
    else none

/-- See `jsIntOfLexeme`. -/
def jsNumberInt : JVal → Option Int
  | .jnum lx => jsIntOfLexeme lx.data
  | .jstr s =>
    let t := (jsTrim s)
    if t = "" then some 0 else jsIntOfLexeme t.data
  | .jbool b => some (if b then 1 else 0)
  | .jnull => some 0
  | _ => none

/-- One persisted question row (`questions` table insert shape). -/
structure QuestionRow where
  upload_id : String
  question_number : Nat
  question_text : String
  passage_text : Option String
  option_a : Option String
  option_b : Option String
  option_c : Option String
  option_d : Option String
  option_e : Option String
  correct_answer : Option String
  image_url : Option String
  page_number : Option Int
deriving DecidableEq, Repr

/-- Build one question row from the parsed model item `q` at 0-based index
`i` (the body of the `questions.slice(0, questionCount).map((q, i) => ...)`
in the route). -/
def buildRow (uploadId : String) (i : Nat) (q : JVal) : Except String QuestionRow := do
  let optsField ← getField q "options"
  let opts := optionsToColumns optsField
  let correctField ← getField q "correct"
  let correct := normalizeCorrect correctField
  let typeField ← getField q "type"
  let isCodeType :=
    match typeField with
    | some (.jstr s) => decide (s = "code")
    | _ => false
  let baseQ ← coalesceFields q (if isCodeType then ["question", "content"] else ["content"])
  let baseT ←
    match baseQ with
    | some v => jsTrimOrThrow v
    | none => pure ""
  let questionText0 := if baseT = "" then "No question text." else baseT
  let (questionText1, passageText0) ←
    if isCodeType then do
      let rawField ← coalesceFields q ["code", "content"]
      let rawCode ←
        match rawField with
        | some v => jsTrimOrThrow v
        | none => pure ""
      let stripped := stripQuestionFromCode (blankToNull (some rawCode))
      let qt :=
        match stripped.strippedQuestion with
        | some sq =>
          if questionText0 = "" ∨ questionText0 = "No question text." then sq
          else questionText0
        | none => questionText0
      pure (qt, stripped.codeOnly)
    else do
      let pField ← coalesceFields q ["image_description", "content"]
      let p ←
        match pField with
        | some v => (jsTrimOrThrow v).map (fun t => blankToNull (some t))
        | none => pure none
      pure (questionText0, p)
  let questionText2 :=
    if isPlaceholderText (some questionText1) then "No question text." else questionText1
  let passageText :=
    match passageText0 with
    | some p => if isPlaceholderText (some p) then none else some p
    | none => none
  let hasAnyOption :=
    [opts.option_a, opts.option_b, opts.option_c, opts.option_d, opts.option_e].any
      (fun o =>
        match o with
        | some s => decide ((jsTrim s) ≠ "")
        | none => false)
  let questionText :=
    if questionText2 = "No question text." ∧ hasAnyOption then
      "Which of the following is correct?"
    else questionText2
  let pnField ← getField q "page_number"
  let pageNum :=
    match pnField with
    | none => none
    | some .jnull => none
    | some v => jsNumberInt v
  pure
    { upload_id := uploadId
      question_number := i + 1
      question_text := questionText
      passage_text := passageText
      option_a := opts.option_a
      option_b := opts.option_b
      option_c := opts.option_c
      option_d := opts.option_d
      option_e := opts.option_e
      correct_answer := correct
      image_url := none
      page_number := pageNum }

/-- Embeds `questions.slice(0, questionCount).map((q, i) => ...)`; a thrown
`TypeError` in any item aborts the whole mapping. -/
def rowsOf (uploadId : String) (questionCount : Nat) (questions : List JVal) :
    Except String (List QuestionRow) :=
  ((questions.take questionCount).enum).mapM (fun p => buildRow uploadId p.1 p.2)

/-- One `pdf_uploads` row (the columns this pipeline writes). -/
structure UploadRow where
  id : String
  user_email : String
  filename : String
  storage_path : String
  subject : String
  original_text : String
deriving DecidableEq, Repr

/-- The data-store state the extraction pipeline touches. -/
structure AnalyzeDb where
  pdf_uploads : List UploadRow
  questions : List QuestionRow
  storedPdfs : List String
deriving DecidableEq, Repr

/-- The uploaded file part of the multipart form. -/
structure FilePart where
  name : String
  mimeType : String
  size : Nat
deriving DecidableEq, Repr

/-- The extraction request. -/
structure AnalyzeRequest where
  file : Option FilePart
  subject : Option String
  questionCount : Option String
  userEmail : Option String
deriving DecidableEq, Repr

/-- Environment of one extraction call: configuration, the model's response
text (`""` models a missing body), the id the store assigns to the new
upload row, and whether each external write fails. -/
structure AnalyzeEnv where
  geminiApiKey : Option String
  modelResponse : String
  newUploadId : String
  uploadInsertFails : Bool
  questionsInsertFails : Bool
  storageUploadFails : Bool
deriving DecidableEq, Repr

/-- HTTP-level outcome of the extraction route. -/
inductive ApiResult where
  | ok (examId : String)
  | err (message : String) (status : Nat)
deriving DecidableEq, Repr

/-- The post-validation tail of the handler: model call, parse, persist,
best-effort archive, question insert with compensating delete. -/
def analyzePersist (env : AnalyzeEnv) (file : FilePart) (subject : String)
    (qc : Nat) (em : String) (db : AnalyzeDb) : ApiResult × AnalyzeDb :=
  let text := env.modelResponse
  if text = "" then
    (.err "Gemini returned no content. The PDF may be unreadable or empty." 502, db)
  else
    match parseJsonFromResponse text with
    | .error _ =>
      (.err "Failed to parse Gemini response as JSON. Try again or use a simpler PDF." 502, db)
    | .ok questions =>
      if env.uploadInsertFails then (.err "Failed to save upload record." 500, db)
      else
        let uploadId := env.newUploadId
        let row : UploadRow :=
          { id := uploadId
            user_email := em
            filename := file.name
            storage_path := "pending/" ++ file.name
            subject := subject
            original_text := String.mk (text.data.take 50000) }
        let db1 := { db with pdf_uploads := db.pdf_uploads ++ [row] }
        let db2 :=
          if env.storageUploadFails then db1
          else
            { db1 with
              storedPdfs := db1.storedPdfs ++ [uploadId ++ ".pdf"]
              pdf_uploads := db1.pdf_uploads.map (fun u =>
                if u.id = uploadId then { u with storage_path := uploadId ++ ".pdf" }
                else u) }
        match rowsOf uploadId qc questions with
        | .error msg => (.err msg 500, db2)
        | .ok rows =>
          if 0 < rows.length then
            if env.questionsInsertFails then
              (.err "Failed to save questions." 500,
                { db2 with pdf_uploads := db2.pdf_uploads.filter (fun u => u.id ≠ uploadId) })
            else (.ok uploadId, { db2 with questions := db2.questions ++ rows })
          else (.ok uploadId, db2)

/-- Embeds the `POST` handler of `upload/analyze/route.ts`. -/
def analyzePost (env : AnalyzeEnv) (req : AnalyzeRequest) (db : AnalyzeDb) :
    ApiResult × AnalyzeDb :=
  if (env.geminiApiKey.map jsTrim).getD "" = "" then
    (.err "GEMINI_API_KEY is not set. Add it to .env for PDF analysis." 500, db)
  else
    match req.file with
    | none => (.err "No PDF file provided." 400, db)
    | some file =>
      if file.mimeType ≠ "application/pdf" then (.err "File must be a PDF." 400, db)
      else if MAX_FILE_BYTES < file.size then (.err "PDF must be under 50 MB." 400, db)
      else
        let subject := (req.subject.map jsTrim).getD ""
        if subject = "" ∨ subject ∉ SUBJECT_KEYS then
          (.err "Invalid or missing subject." 400, db)
        else
          match parseIntJs (req.questionCount.getD "") with
          | none => (.err "Question count must be a positive number." 400, db)
          | some qc =>
            if qc < 1 then (.err "Question count must be a positive number." 400, db)
            else
              match req.userEmail.map jsTrim with
              | none => (.err "User email is required." 401, db)
              | some em =>
                if em = "" then (.err "User email is required." 401, db)
                else analyzePersist env file subject qc.toNat em db

/-! ## Completion / answer-resolution pipeline (`POST` of `exam/complete/route.ts`)

Timestamps are epoch milliseconds (`Nat`); `Math.max(0, Math.floor((now -
started)/1000))` coincides with truncated `Nat` subtraction and division.
The resolution model is an oracle from batch ordinal to response text
(`none` models a thrown model call, which the route catches and logs). -/

/-- `BATCH_SIZE = 8`. -/
def BATCH_SIZE : Nat := 8

/-- One `attempts` row. -/
structure AttemptRow where
  id : String
  upload_id : String
  started_at : Option Nat
  completed_at : Option Nat
  time_spent_seconds : Nat
  correct_count : Nat
  incorrect_count : Nat
  unanswered_count : Nat
deriving DecidableEq, Repr

/-- The `pdf_uploads` columns this route reads. -/
structure ExamUploadRow where
  id : String
  subject : Option String
deriving DecidableEq, Repr

/-- The `questions` columns this route reads. -/
structure SolveQuestionRow where
  id : String
  upload_id : String
  question_number : Nat
  question_text : String
  passage_text : Option String
  precondition_text : Option String
  option_a : Option String
  option_b : Option String
  option_c : Option String
  option_d : Option String
  option_e : Option String
  correct_answer : Option String
deriving DecidableEq, Repr

/-- One `attempt_answers` row. -/
structure AttemptAnswerRow where
  id : String
  attempt_id : String
  question_id : String
  user_answer : Option String
  ai_answer : Option String
  is_correct : Bool
deriving DecidableEq, Repr

/-- The data-store state the completion pipeline touches. -/
structure CompleteDb where
  attempts : List AttemptRow
  pdf_uploads : List ExamUploadRow
  questions : List SolveQuestionRow
  attempt_answers : List AttemptAnswerRow
deriving DecidableEq, Repr

/-- Environment of one completion call. -/
structure CompleteEnv where
  geminiApiKey : Option String
  batchResponses : Nat → Option String
  nowMs : Nat
  freshAnswerId : Nat → String

/-- HTTP-level outcome payload of a successful completion. -/
structure BreakdownEntry where
  questionNumber : Nat
  userAnswer : Option String
  correctAnswer : Option String
  isCorrect : Bool
deriving DecidableEq, Repr

/-- See `BreakdownEntry`. -/
structure CompleteOk where
  total : Nat
  correctCount : Nat
  incorrectCount : Nat
  unansweredCount : Nat
  percentage : Nat
  timeSpentSeconds : Nat
  breakdown : List BreakdownEntry
deriving DecidableEq, Repr

/-- HTTP-level outcome of the completion route. -/
inductive CompleteResult where
  | ok (payload : CompleteOk)
  | err (message : String) (status : Nat)
deriving DecidableEq, Repr

/-- `.single()`: exactly one matching row, else an error (`none`). -/
def dbSingle (rows : List α) (p : α → Bool) : Option α :=
  match rows.filter p with
  | [r] => some r
  | _ => none

/-- Auxiliary for `chunksOf`; structural recursion on fuel (one chunk of a
positive size consumes at least one element, so fuel = input length
suffices). -/
def chunksOfAux (n : Nat) : Nat → List α → List (List α)
  | 0, _ => []
  | _ + 1, [] => []
  | fuel + 1, x :: xs =>
    if n = 0 then []
    else (x :: xs).take n :: chunksOfAux n fuel ((x :: xs).drop n)

/-- Split a list into consecutive chunks of size `n` (the
`slice(i, i + BATCH_SIZE)` loop). -/
def chunksOf (n : Nat) (l : List α) : List (List α) :=
  chunksOfAux n l.length l

/-- The body of the `batch.forEach((q, j) => ...)` loop: position `j`'s
parsed answer is attached to question `j`'s id when present and valid
(`if (ans && VALID_ANSWERS.includes(ans))`). -/
def batchEntry (answers : List (Option String)) (p : Nat × SolveQuestionRow) :
    Option (String × String) :=
  match answers.get? p.1 with
  | some (some a) => if a ∈ validLetters then some (p.2.id, a) else none
  | _ => none

/-- The assignments one batch contributes to the AI-answer map: the batch's
response is parsed against the batch length and letters are mapped back
positionally; a thrown call (`none`) contributes nothing. -/
def batchAssign (resp : Option String) (batch : List SolveQuestionRow) :
    List (String × String) :=
  match resp with
  | none => []
  | some text =>
    let answers := parseSolveResponse text batch.length
    batch.enum.filterMap (batchEntry answers)

/-- Map lookup with JS `Map` semantics (the last `set` for a key wins). -/
def mapGet (m : List (String × String)) (k : String) : Option String :=
  (m.reverse.find? (fun p => p.1 == k)).map (fun p => p.2)

/-- The batched resolution loop of the route, producing the `aiAnswerMap`
entries in insertion order. -/
def buildAiAnswerMap (env : CompleteEnv) (needing : List SolveQuestionRow) :
    List (String × String) :=
  if 0 < needing.length ∧ (env.geminiApiKey.map jsTrim).getD "" ≠ "" then
    ((chunksOf BATCH_SIZE needing).enum).flatMap
      (fun p => batchAssign (env.batchResponses p.1) p.2)
  else []

/-- Embeds `!q.correct_answer || String(q.correct_answer).trim() === ""`. -/
def needsAi (q : SolveQuestionRow) : Bool :=
  match q.correct_answer with
  | none => true
  | some s => decide (s = "") || decide ((jsTrim s) = "")

/-- Embeds `x?.toString().trim().toUpperCase() || ⋯` (blank ⇒ falsy). -/
def normCorrectUpper (ca : Option String) : Option String :=
  match ca with
  | none => none
  | some s =>
    let u := jsUpper (jsTrim s)
    if u = "" then none else some u

/-- Embeds `aa.user_answer?.toString().toUpperCase().trim() || null`. -/
def normUserAnswer (ua : Option String) : Option String :=
  match ua with
  | none => none
  | some s =>
    let u := jsTrim (jsUpper s)
    if u = "" then none else some u

/-- Value stored in `questionCorrectMap` for a question: its known answer
(trimmed, upper-cased, blank ⇒ falsy) or else the AI-resolved letter. -/
def questionCorrectVal (aiMap : List (String × String)) (q : SolveQuestionRow) :
    Option String :=
  match normCorrectUpper q.correct_answer with
  | some u => some u
  | none => mapGet aiMap q.id

/-- `order("question_number", { ascending: true })`. -/
def sortQuestions (l : List SolveQuestionRow) : List SolveQuestionRow :=
  l.mergeSort (fun a b => a.question_number ≤ b.question_number)

/-- `Math.round(correct / total * 100)` computed exactly (round half up). -/
def jsRoundPct (c t : Nat) : Nat := (200 * c + t) / (2 * t)

/-- The scoring tail of the completion handler, reached only when the
attempt exists and is not yet completed. -/
def completeScoring (env : CompleteEnv) (aid : String) (att : AttemptRow)
    (db : CompleteDb) : CompleteResult × CompleteDb :=
  let upload := dbSingle db.pdf_uploads (fun u => u.id == att.upload_id)
  let _subject := (upload.bind (fun u => u.subject)).getD "AP_PSYCHOLOGY"
  let allQuestions :=
    sortQuestions (db.questions.filter (fun q => q.upload_id == att.upload_id))
  if allQuestions.length = 0 then (.err "No questions found." 400, db)
  else
    let questionsNeedingAi := allQuestions.filter needsAi
    let aiAnswerMap := buildAiAnswerMap env questionsNeedingAi
    let attemptAnswers := db.attempt_answers.filter (fun a => a.attempt_id == aid)
    let table1 := attemptAnswers.foldl (fun table aa =>
      let correctAnswer :=
        (allQuestions.reverse.find? (fun q => q.id == aa.question_id)).bind
          (questionCorrectVal aiAnswerMap)
      let userAnswer := normUserAnswer aa.user_answer
      let isCorrect :=
        userAnswer.isSome && correctAnswer.isSome && (userAnswer == correctAnswer)
      let aiAnswer := mapGet aiAnswerMap aa.question_id
      table.map (fun row =>
        if row.id == aa.id then { row with ai_answer := aiAnswer, is_correct := isCorrect }
        else row)) db.attempt_answers
    let answeredIds := attemptAnswers.map (fun a => a.question_id)
    let newRows :=
      ((allQuestions.filter (fun q => !(answeredIds.contains q.id))).enum).map
        (fun p =>
          { id := env.freshAnswerId p.1
            attempt_id := aid
            question_id := p.2.id
            user_answer := none
            ai_answer := mapGet aiAnswerMap p.2.id
            is_correct := false : AttemptAnswerRow })
    let table2 := table1 ++ newRows
    let finalAnswers := table2.filter (fun a => a.attempt_id == aid)
    let isUnanswered := fun (a : AttemptAnswerRow) =>
      a.user_answer == none || a.user_answer == some ""
    let unansweredCount := (finalAnswers.filter isUnanswered).length
    let correctCount :=
      (finalAnswers.filter (fun a => !(isUnanswered a) && a.is_correct)).length
    let incorrectCount :=
      (finalAnswers.filter (fun a => !(isUnanswered a) && !(a.is_correct))).length
    let startedMs := att.started_at.getD env.nowMs
    let timeSpentSeconds := (env.nowMs - startedMs) / 1000
    let attempts2 := db.attempts.map (fun a =>
      if a.id == aid then
        { a with
          completed_at := some env.nowMs
          time_spent_seconds := timeSpentSeconds
          correct_count := correctCount
          incorrect_count := incorrectCount
          unanswered_count := unansweredCount }
      else a)
    let totalQuestions := allQuestions.length
    let percentage := if 0 < totalQuestions then jsRoundPct correctCount totalQuestions else 0
    let questionsWithAnswers :=
      sortQuestions (db.questions.filter (fun q => q.upload_id == att.upload_id))
    let answersWithAi := table2.filter (fun a => a.attempt_id == aid)
    let breakdown := questionsWithAnswers.map (fun q =>
      let a := answersWithAi.reverse.find? (fun x => x.question_id == q.id)
      let correctAnswer :=
        match normCorrectUpper q.correct_answer with
        | some u => some u
        | none => blankToNull (a.bind (fun x => x.ai_answer))
      { questionNumber := q.question_number
        userAnswer := a.bind (fun x => x.user_answer)
        correctAnswer := correctAnswer
        isCorrect := (a.map (fun x => x.is_correct)).getD false : BreakdownEntry })
    (.ok
      { total := totalQuestions
        correctCount := correctCount
        incorrectCount := incorrectCount
        unansweredCount := unansweredCount
        percentage := percentage
        timeSpentSeconds := timeSpentSeconds
        breakdown := breakdown },
      { db with attempts := attempts2, attempt_answers := table2 })

/-- Embeds the `POST` handler of `exam/complete/route.ts`. -/
def completePost (env : CompleteEnv) (attemptIdParam : Option String)
    (db : CompleteDb) : CompleteResult × CompleteDb :=
  match attemptIdParam with
  | none => (.err "attemptId is required." 400, db)
  | some aid =>
    if (jsTrim aid) = "" then (.err "attemptId is required." 400, db)
    else
      match dbSingle db.attempts (fun a => a.id == aid) with
      | none => (.err "Attempt not found." 404, db)
      | some att =>
        match att.completed_at with
        | some _ => (.err "Exam already completed." 400, db)
        | none => completeScoring env aid att db

/-! ## Specification-side definitions

These follow the wording of the specification / claims, for comparison with
the source-derived definitions above. -/

/-- Modelled from the claim wording for the option-normalization function:
slot `i` (0-based) holds the `i`-th entry of the array, rendered and trimmed,
with missing, `null` or blank entries mapped to `null`; a non-array input has
no entries; entries past the fifth are never consulted. -/
def specOptionSlot (options : Option JVal) (i : Nat) : Option String :=
  match options with
  | some (.jarr xs) =>
    match xs.get? i with
    | none => none
    | some .jnull => none
    | some v =>
      let t := jsTrim (jsToString v)
      if t = "" then none else some t
  | _ => none

/-- The question-stem-only claim exactly as stated: true iff the text is not
an HTML table, plain-text table or SVG, has at most 3 non-empty lines, is
under 600 characters, does not contain two-or-more list-marker lines, and
ends with `"?"` or begins with an interrogative word. -/
def specStemClaim (text : Option String) : Bool :=
  match text with
  | none => false
  | some s =>
    let t := (jsTrim s)
    let lines := trimFilterTokens (jsSplitLines t)
    let listLines := lines.filter (fun l => isRomanListLine l || isArabicListLine l)
    (!(isTableHtml (some t) || looksLikeTableText (some t) || isSvgContent (some t))) &&
      decide (lines.length ≤ 3) && decide (t.length < 600) &&
      decide (listLines.length < 2) &&
      (strEndsWith t "?" || startsWithInterrogative t)

/-- The question-stem-only claim as amended: additionally, a text with at
least two non-empty lines is rejected as soon as it contains even one
list-marker line. -/
def specStemAmended (text : Option String) : Bool :=
  match text with
  | none => false
  | some s =>
    let t := (jsTrim s)
    let lines := trimFilterTokens (jsSplitLines t)
    let listLines := lines.filter (fun l => isRomanListLine l || isArabicListLine l)
    (!(isTableHtml (some t) || looksLikeTableText (some t) || isSvgContent (some t))) &&
      decide (lines.length ≤ 3) && decide (t.length < 600) &&
      decide (listLines.length < 2) &&
      (!(decide (2 ≤ lines.length) && decide (1 ≤ listLines.length))) &&
      (strEndsWith t "?" || startsWithInterrogative t)

/-- A minimal question row with a given id, for the C5 witness. -/
def mkSolveQ (i : String) : SolveQuestionRow :=
  { id := i, upload_id := "u", question_number := 1, question_text := "t",
    passage_text := none, precondition_text := none, option_a := some "x",
    option_b := some "y", option_c := none, option_d := none, option_e := none,
    correct_answer := none }

/-- Nine unresolved questions (two batches), for the C5 witness. -/
def c5needing : List SolveQuestionRow :=
  [mkSolveQ "q1", mkSolveQ "q2", mkSolveQ "q3", mkSolveQ "q4", mkSolveQ "q5",
   mkSolveQ "q6", mkSolveQ "q7", mkSolveQ "q8", mkSolveQ "q9"]

/-- The first batch (eight questions) of `c5needing`. -/
def c5batch : List SolveQuestionRow :=
  [mkSolveQ "q1", mkSolveQ "q2", mkSolveQ "q3", mkSolveQ "q4", mkSolveQ "q5",
   mkSolveQ "q6", mkSolveQ "q7", mkSolveQ "q8"]

/-- Environment whose first batch answers `["A","B"]` (shorter than the
batch) and whose second answers `["C"]`, for the C5 witness. -/
def c5env : CompleteEnv :=
  { geminiApiKey := some "key",
    batchResponses := fun k => if k = 0 then some "[\"A\",\"B\"]" else some "[\"C\"]",
    nowMs := 0, freshAnswerId := fun _ => "x" }

/-! ## Concrete instances used by the claim witnesses and counterexamples -/

/-- A completed attempt, for the C4 witness. -/
def c4att : AttemptRow :=
  { id := "a1", upload_id := "u1", started_at := some 0, completed_at := some 1000,
    time_spent_seconds := 1, correct_count := 2, incorrect_count := 3, unanswered_count := 4 }

/-- Store containing the completed attempt, for the C4 witness. -/
def c4db : CompleteDb :=
  { attempts := [c4att], pdf_uploads := [], questions := [], attempt_answers := [] }

/-- Environment for the C4 witness. -/
def c4env : CompleteEnv :=
  { geminiApiKey := some "k", batchResponses := fun _ => none, nowMs := 0,
    freshAnswerId := fun _ => "x" }

/-- A well-formed extraction request, for the C2 theorems. -/
def c2req : AnalyzeRequest :=
  { file := some { name := "exam.pdf", mimeType := "application/pdf", size := 1000 },
    subject := some "AP_STATISTICS", questionCount := some "5",
    userEmail := some "user@example.com" }

/-- Environment in which the model returns the literal text `"[]"`. -/
def c2env : AnalyzeEnv :=
  { geminiApiKey := some "key", modelResponse := "[]", newUploadId := "up1",
    uploadInsertFails := false, questionsInsertFails := false,
    storageUploadFails := false }

/-- An initially empty store, for the C2 theorems. -/
def c2db : AnalyzeDb := { pdf_uploads := [], questions := [], storedPdfs := [] }

/-- Request for the C7 witness. -/
def c7req : AnalyzeRequest :=
  { file := some { name := "exam.pdf", mimeType := "application/pdf", size := 1000 },
    subject := some "AP_STATISTICS", questionCount := some "5",
    userEmail := some "user@example.com" }

/-- Environment for the C7 witness: one extracted question, and the
questions-batch insert fails. -/
def c7env : AnalyzeEnv :=
  { geminiApiKey := some "key",
    modelResponse := "[\x7b\"type\":\"text\",\"content\":\"What is 2?\",\"options\":[\"1\",\"2\"],\"correct\":\"b\"\x7d]",
    newUploadId := "up1", uploadInsertFails := false, questionsInsertFails := true,
    storageUploadFails := false }

/-- Store for the C7 witness. -/
def c7db : AnalyzeDb := { pdf_uploads := [], questions := [], storedPdfs := [] }

/-- The parsed model response of the C7 witness. -/
def c7qs : List JVal :=
  [JVal.jobj [("type", .jstr "text"), ("content", .jstr "What is 2?"),
    ("options", .jarr [.jstr "1", .jstr "2"]), ("correct", .jstr "b")]]

/-- The question rows built from `c7qs`. -/
def c7rows : List QuestionRow :=
  [{ upload_id := "up1", question_number := 1, question_text := "What is 2?",
     passage_text := some "What is 2?", option_a := some "1", option_b := some "2",
     option_c := none, option_d := none, option_e := none, correct_answer := some "B",
     image_url := none, page_number := none }]

/-! # Theorems -/

/-- C1: the round-trip claim fails on the code.  For the plain-text table
`"a b\nc d"` the converter emits a well-formed table of whitelisted tags, but
`sanitizeTableHtml`'s final replacement `/<\/?[a-zA-Z][a-zA-Z0-9]*\b[^>]*>/g`
strips every tag — the whitelisted ones included — leaving only the
concatenated cell texts, contradicting the sanitizer's stated behaviour of
keeping table/thead/tbody/tr/th/td. -/
theorem c1_sanitizer_strips_whitelisted_tags :
    plainTextToTableHtml "a b\nc d" =
      "<table><thead><tr><th>a</th><th>b</th></tr></thead><tbody><tr><td>c</td><td>d</td></tr></tbody></table>" ∧
    sanitizeTableHtml (plainTextToTableHtml "a b\nc d") = "abcd" ∧
    containsSub "<table" (sanitizeTableHtml (plainTextToTableHtml "a b\nc d")) = false := by
  decide

/-- C3 counterexample: on `"Price | Quantity\n10 | 5\n20 | 3"` no line
contains two pipe characters, so the classifier does not select pipe mode
(it selects single-space mode), refuting the claimed delimiter mode and the
claimed 2-column header. -/
theorem c3_pipe_mode_counterexample :
    getTableSplitMode (linesOf "Price | Quantity\n10 | 5\n20 | 3") = TableSplitMode.space1 ∧
    TableSplitMode.space1 ≠ TableSplitMode.pipe ∧
    splitTableRow "Price | Quantity" TableSplitMode.space1 = ["Price", "|", "Quantity"] := by
  decide

set_option maxRecDepth 4096 in
/-- C3 as amended: the classifier selects `space1` mode (the pipe branch
requires some line with at least two `|` characters), each row splits into
three columns with a literal `"|"` middle cell, the text is still confirmed
as a table, and the conversion yields a 3-column header row
`Price, |, Quantity` and two 3-column body rows. -/
theorem c3_table_detected_in_space1_mode :
    getTableSplitMode (linesOf "Price | Quantity\n10 | 5\n20 | 3") = TableSplitMode.space1 ∧
    looksLikeTableText (some "Price | Quantity\n10 | 5\n20 | 3") = true ∧
    plainTextToTableHtml "Price | Quantity\n10 | 5\n20 | 3" =
      "<table><thead><tr><th>Price</th><th>|</th><th>Quantity</th></tr></thead><tbody><tr><td>10</td><td>|</td><td>5</td></tr><tr><td>20</td><td>|</td><td>3</td></tr></tbody></table>" := by
  decide

/-- C8: the code/question splitter cuts the combined CSA text exactly at the
trailing interrogative sentence: the reference code ends at the closing brace
and the stem is the question sentence verbatim. -/
theorem c8_code_question_split :
    stripQuestionFromCode (some "public class Foo \x7b ... \x7d\nWhich of the following is true?") =
      { codeOnly := some "public class Foo \x7b ... \x7d"
        strippedQuestion := some "Which of the following is true?" } := by
  decide

/-- C9 counterexample: `"Which is true?\nI. a b c d"` satisfies every
condition of the claim as stated (not a table or SVG, 2 lines, short, only
one list-marker line, begins with an interrogative), yet the code returns
`false`, because it also rejects any multi-line text containing even a single
list-marker line. -/
theorem c9_stem_claim_counterexample :
    specStemClaim (some "Which is true?\nI. a b c d") = true ∧
    looksLikeQuestionStem (some "Which is true?\nI. a b c d") = false := by
  decide

/-- Boolean equivalence between the source's guard structure and the amended
claim's conjunction, over the line/list-marker counts, the length bound and
the two trailing tests. -/
theorem stemCondEquiv (ln ll len : Nat) (E Q : Bool) :
    (if 2 ≤ ll ∨ (2 ≤ ln ∧ 1 ≤ ll) then false
     else (decide (ln ≤ 3) && decide (len < 600)) && (E || Q)) =
    (decide (ln ≤ 3) && decide (len < 600) && decide (ll < 2) &&
      !(decide (2 ≤ ln) && decide (1 ≤ ll)) && (E || Q)) := by
  split
  · rename_i h
    rcases h with h | ⟨h1, h2⟩
    · have e : decide (ll < 2) = false := by
        simp only [decide_eq_false_iff_not, Nat.not_lt]
        omega
      simp [e]
    · have e : (!(decide (2 ≤ ln) && decide (1 ≤ ll))) = false := by
        simp only [Bool.not_eq_false', Bool.and_eq_true, decide_eq_true_eq]
        exact ⟨h1, h2⟩
      simp [e]
  · rename_i h
    push_neg at h
    obtain ⟨h1, h2⟩ := h
    have e1 : decide (ll < 2) = true := by
      simp only [decide_eq_true_eq]
      omega
    have e2 : (!(decide (2 ≤ ln) && decide (1 ≤ ll))) = true := by
      simp only [Bool.not_eq_true', Bool.and_eq_false_iff, decide_eq_false_iff_not]
      by_cases hln : 2 ≤ ln
      · have := h2 hln
        exact Or.inr (by omega)
      · exact Or.inl hln
    rw [e1, e2]
    simp [Bool.and_assoc]

/-- C9 as amended: the stem classifier returns true exactly when the text is
not an HTML table, plain-text table or SVG, has at most 3 non-empty lines, is
under 600 characters, does not contain two-or-more list-marker lines, is not
a multi-line (≥ 2 lines) text containing even one list-marker line, and ends
with `"?"` or begins with an interrogative word. -/
theorem c9_stem_amended (text : Option String) :
    looksLikeQuestionStem text = specStemAmended text := by
  cases text with
  | none => rfl
  | some s =>
    by_cases hb : jsTrim s = ""
    · simp only [looksLikeQuestionStem, specStemAmended, hb]
      decide
    · simp only [looksLikeQuestionStem, specStemAmended, hb, if_false]
      cases hA : (isTableHtml (some (jsTrim s)) || looksLikeTableText (some (jsTrim s)) ||
          isSvgContent (some (jsTrim s))) with
      | true => simp [hA]
      | false =>
        simp only [hA, Bool.not_false, Bool.true_and, if_false]
        exact stemCondEquiv _ _ _ _ _

/-- The slot at index `i` of `optionsToColumns` agrees with the claim's
positional description. -/
theorem optionSlotKey (xs : List JVal) (i : Nat) :
    blankToNull ((xs.map optionEntryRender).get? i) = specOptionSlot (some (.jarr xs)) i := by
  rw [List.get?_eq_getElem?, List.getElem?_map]
  simp only [specOptionSlot, List.get?_eq_getElem?]
  cases h : xs[i]? with
  | none => simp [h, blankToNull]
  | some w => cases w <;> simp [h, blankToNull, optionEntryRender]

/-- C6: for every input value — array of any length (including empty,
over-length, or containing null/blank entries) or non-array — the
option-normalization function yields exactly five named slots A–E populated
positionally in order, with missing, null or blank entries mapped to null and
entries past the fifth discarded; being a total Lean function it never
throws. -/
theorem c6_options_normalization (v : Option JVal) :
    (optionsToColumns v).option_a = specOptionSlot v 0 ∧
    (optionsToColumns v).option_b = specOptionSlot v 1 ∧
    (optionsToColumns v).option_c = specOptionSlot v 2 ∧
    (optionsToColumns v).option_d = specOptionSlot v 3 ∧
    (optionsToColumns v).option_e = specOptionSlot v 4 := by
  cases v with
  | none => exact ⟨rfl, rfl, rfl, rfl, rfl⟩
  | some w =>
    cases w with
    | jarr xs =>
      refine ⟨?_, ?_, ?_, ?_, ?_⟩ <;>
        simpa [optionsToColumns] using optionSlotKey xs _
    | jnull => exact ⟨rfl, rfl, rfl, rfl, rfl⟩
    | jbool b => exact ⟨rfl, rfl, rfl, rfl, rfl⟩
    | jnum lx => exact ⟨rfl, rfl, rfl, rfl, rfl⟩
    | jstr s => exact ⟨rfl, rfl, rfl, rfl, rfl⟩
    | jobj fs => exact ⟨rfl, rfl, rfl, rfl, rfl⟩

/-- C4: a second completion request on an already-completed Attempt is
rejected with the conflict error `"Exam already completed."` (HTTP 400)
before any re-scoring: the store — the attempt's aggregate counts,
percentage-bearing fields, elapsed time and all AttemptAnswer rows — is
returned unchanged. -/
theorem c4_completion_conflict_guard (env : CompleteEnv) (aid : String)
    (att : AttemptRow) (db : CompleteDb)
    (hid : jsTrim aid ≠ "")
    (hfind : dbSingle db.attempts (fun a => a.id == aid) = some att)
    (hdone : att.completed_at.isSome) :
    completePost env (some aid) db = (.err "Exam already completed." 400, db) := by
  simp only [completePost, if_neg hid, hfind]
  cases h : att.completed_at with
  | none => rw [h] at hdone; simp at hdone
  | some t => simp [h]

/-- C4 witness: the guard theorem applied to a concrete completed attempt. -/
theorem c4_completion_conflict_guard_witness :
    completePost c4env (some "a1") c4db = (.err "Exam already completed." 400, c4db) :=
  c4_completion_conflict_guard c4env "a1" c4att c4db (by decide) (by decide) (by decide)

/-- C2 counterexample: when the model returns `"[]"` the route does not fail
with a "no questions found" error — it succeeds with the new upload id,
persists zero Question rows, and the Upload row survives (the route's
compensating delete is guarded by `rows.length > 0` and never runs). -/
theorem c2_empty_result_counterexample :
    (analyzePost c2env c2req c2db).1 = .ok "up1" ∧
    (analyzePost c2env c2req c2db).2.questions = [] ∧
    ((analyzePost c2env c2req c2db).2.pdf_uploads.filter (fun u => u.id == "up1")).length = 1 := by
  decide

/-- C2 as amended: when the extraction model's response parses to an empty
JSON array, the operation succeeds returning the new Upload id, persists
zero Question rows, and the Upload row survives (no rejection occurs in this
route). -/
theorem c2_empty_result_amended (env : AnalyzeEnv) (req : AnalyzeRequest) (db : AnalyzeDb)
    (file : FilePart) (qc : Int) (em : String)
    (hkey : (env.geminiApiKey.map jsTrim).getD "" ≠ "")
    (hfile : req.file = some file)
    (hmime : file.mimeType = "application/pdf")
    (hsize : file.size ≤ MAX_FILE_BYTES)
    (hsub : (req.subject.map jsTrim).getD "" ∈ SUBJECT_KEYS)
    (hqc : parseIntJs (req.questionCount.getD "") = some qc)
    (hqc1 : 1 ≤ qc)
    (hem : req.userEmail.map jsTrim = some em)
    (hem1 : em ≠ "")
    (hresp : env.modelResponse ≠ "")
    (hparse : parseJsonFromResponse env.modelResponse = .ok [])
    (hup : env.uploadInsertFails = false) :
    (analyzePost env req db).1 = .ok env.newUploadId ∧
    (analyzePost env req db).2.questions = db.questions ∧
    ∃ u ∈ (analyzePost env req db).2.pdf_uploads, u.id = env.newUploadId := by
  have hne : (req.subject.map jsTrim).getD "" ≠ "" := by
    intro h
    rw [h] at hsub
    exact absurd hsub (by decide)
  have hsubC : ¬((req.subject.map jsTrim).getD "" = "" ∨
      (req.subject.map jsTrim).getD "" ∉ SUBJECT_KEYS) := by
    push_neg
    exact ⟨hne, hsub⟩
  have hsizeC : ¬(MAX_FILE_BYTES < file.size) := Nat.not_lt.mpr hsize
  have hqcC : ¬(qc < 1) := by omega
  have hrows : rowsOf env.newUploadId qc.toNat [] = .ok [] := by
    simp only [rowsOf, List.take_nil, List.enum_nil]
    rfl
  simp only [analyzePost, if_neg hkey, hfile, hmime, ne_eq, not_true_eq_false, if_false,
    if_neg hsizeC, if_neg hsubC, hqc, if_neg hqcC, hem, if_neg hem1,
    analyzePersist, if_neg hresp, hparse, hup, Bool.false_eq_true, if_false, hrows,
    List.length_nil, Nat.lt_irrefl, ite_false]
  refine ⟨trivial, ?_, ?_⟩
  · cases hst : env.storageUploadFails <;> simp [hst]
  · cases hst : env.storageUploadFails with
    | true =>
      simp only [hst, if_true]
      exact ⟨_, List.mem_append_right _ (List.mem_singleton_self _), rfl⟩
    | false =>
      simp only [hst, Bool.false_eq_true, if_false]
      refine ⟨_, List.mem_map_of_mem _ (List.mem_append_right _ (List.mem_singleton_self _)), ?_⟩
      simp

/-- C2 amended witness: the amended theorem applied to the concrete `"[]"`
scenario. -/
theorem c2_empty_result_amended_witness :
    (analyzePost c2env c2req c2db).1 = .ok c2env.newUploadId ∧
    (analyzePost c2env c2req c2db).2.questions = c2db.questions ∧
    ∃ u ∈ (analyzePost c2env c2req c2db).2.pdf_uploads, u.id = c2env.newUploadId :=
  c2_empty_result_amended c2env c2req c2db
    { name := "exam.pdf", mimeType := "application/pdf", size := 1000 } 5 "user@example.com"
    (by decide) rfl rfl (by decide) (by decide) (by decide) (by decide) (by decide)
    (by decide) (by decide) rfl rfl

/-- C7: when the batch insert of Question rows fails after the Upload row was
inserted, the pipeline deletes that Upload row (compensating action) and
returns the persistence error: afterwards no upload with the new id survives
and the questions table is exactly as before (no partial Question rows). -/
theorem c7_compensating_delete (env : AnalyzeEnv) (req : AnalyzeRequest) (db : AnalyzeDb)
    (file : FilePart) (qc : Int) (em : String) (qs : List JVal) (rows : List QuestionRow)
    (hkey : (env.geminiApiKey.map jsTrim).getD "" ≠ "")
    (hfile : req.file = some file)
    (hmime : file.mimeType = "application/pdf")
    (hsize : file.size ≤ MAX_FILE_BYTES)
    (hsub : (req.subject.map jsTrim).getD "" ∈ SUBJECT_KEYS)
    (hqc : parseIntJs (req.questionCount.getD "") = some qc)
    (hqc1 : 1 ≤ qc)
    (hem : req.userEmail.map jsTrim = some em)
    (hem1 : em ≠ "")
    (hresp : env.modelResponse ≠ "")
    (hparse : parseJsonFromResponse env.modelResponse = .ok qs)
    (hrows : rowsOf env.newUploadId qc.toNat qs = .ok rows)
    (hne : rows ≠ [])
    (hup : env.uploadInsertFails = false)
    (hqf : env.questionsInsertFails = true) :
    (analyzePost env req db).1 = .err "Failed to save questions." 500 ∧
    (analyzePost env req db).2.questions = db.questions ∧
    ∀ u ∈ (analyzePost env req db).2.pdf_uploads, u.id ≠ env.newUploadId := by
  have hneS : (req.subject.map jsTrim).getD "" ≠ "" := by
    intro h
    rw [h] at hsub
    exact absurd hsub (by decide)
  have hsubC : ¬((req.subject.map jsTrim).getD "" = "" ∨
      (req.subject.map jsTrim).getD "" ∉ SUBJECT_KEYS) := by
    push_neg
    exact ⟨hneS, hsub⟩
  have hsizeC : ¬(MAX_FILE_BYTES < file.size) := Nat.not_lt.mpr hsize
  have hqcC : ¬(qc < 1) := by omega
  have hlen : 0 < rows.length := List.length_pos.mpr hne
  simp only [analyzePost, if_neg hkey, hfile, hmime, ne_eq, not_true_eq_false, if_false,
    if_neg hsizeC, if_neg hsubC, hqc, if_neg hqcC, hem, if_neg hem1,
    analyzePersist, if_neg hresp, hparse, hup, Bool.false_eq_true, if_false, hrows,
    if_pos hlen, hqf, if_true]
  refine ⟨trivial, ?_, ?_⟩
  · cases hst : env.storageUploadFails <;> simp [hst]
  · intro u hu
    have := List.mem_filter.mp hu
    simpa using this.2

/-- C7 witness: the compensating-delete theorem applied to a concrete failing
batch insert. -/
theorem c7_compensating_delete_witness :
    (analyzePost c7env c7req c7db).1 = .err "Failed to save questions." 500 ∧
    (analyzePost c7env c7req c7db).2.questions = c7db.questions ∧
    ∀ u ∈ (analyzePost c7env c7req c7db).2.pdf_uploads, u.id ≠ c7env.newUploadId :=
  c7_compensating_delete c7env c7req c7db
    { name := "exam.pdf", mimeType := "application/pdf", size := 1000 } 5 "user@example.com"
    c7qs c7rows
    (by decide) rfl rfl (by decide) (by decide) (by decide) (by decide) (by decide)
    (by decide) (by decide) rfl rfl (by decide) rfl rfl

/-- When the JSON arm of `parseSolveResponse` yields nothing, the result is
the letter-scan arm or the `null`-filled default. -/
theorem letterArmOrReplicate (text : String) (n : Nat)
    (h : (match firstBracketMatch (jsTrim text).data with
      | none => (none : Option (List (Option String)))
      | some mcs =>
        match jsonParse (String.mk mcs) with
        | some (.jarr arr) => some ((arr.take n).map solveLetterOfJson)
        | _ => none) = none) :
    (∃ ms : List String, parseSolveResponse text n = (ms.take n).map solveLetterOfMatch) ∨
    parseSolveResponse text n = List.replicate n none := by
  unfold parseSolveResponse
  simp only [h]
  by_cases hl : letterScan (jsTrim text).data.length (jsTrim text).data ≠ []
  · simp only [if_pos hl]
    exact Or.inl ⟨_, rfl⟩
  · simp only [if_neg hl]
    first
      | exact Or.inr rfl
      | exact Or.inr trivial

/-- Every `parseSolveResponse` result is a truncated JSON-arm map, a
truncated letter-scan map, or the `null`-filled default. -/
theorem parseSolveResponse_cases (text : String) (n : Nat) :
    (∃ arr : List JVal, parseSolveResponse text n = (arr.take n).map solveLetterOfJson) ∨
    (∃ ms : List String, parseSolveResponse text n = (ms.take n).map solveLetterOfMatch) ∨
    parseSolveResponse text n = List.replicate n none := by
  rcases hb : firstBracketMatch (jsTrim text).data with _ | mcs
  · exact Or.inr (letterArmOrReplicate text n (by simp [hb]))
  · rcases hp : jsonParse (String.mk mcs) with _ | v
    · exact Or.inr (letterArmOrReplicate text n (by simp [hb, hp]))
    · cases v with
      | jarr arr =>
        left
        refine ⟨arr, ?_⟩
        unfold parseSolveResponse
        simp only [hb, hp]
      | jnull => exact Or.inr (letterArmOrReplicate text n (by simp [hb, hp]))
      | jbool b => exact Or.inr (letterArmOrReplicate text n (by simp [hb, hp]))
      | jnum lx => exact Or.inr (letterArmOrReplicate text n (by simp [hb, hp]))
      | jstr s => exact Or.inr (letterArmOrReplicate text n (by simp [hb, hp]))
      | jobj fs => exact Or.inr (letterArmOrReplicate text n (by simp [hb, hp]))

end BlueBook

namespace BlueBook

/-- The result of `parseSolveResponse` never exceeds the expected count. -/
theorem parseSolveResponse_length_le (text : String) (n : Nat) :
    (parseSolveResponse text n).length ≤ n := by
  rcases parseSolveResponse_cases text n with ⟨arr, h⟩ | ⟨ms, h⟩ | h <;> rw [h] <;>
    simp [List.length_take]

/-- A JSON-arm element is `null` or a letter A-E. -/
theorem solveLetterOfJson_valid (a : JVal) :
    solveLetterOfJson a = none ∨ ∃ l, solveLetterOfJson a = some l ∧ l ∈ validLetters := by
  by_cases h : jsTrim (jsUpper (jsStringOrEmpty a)) ∈ validLetters
  · exact Or.inr ⟨_, by simp [solveLetterOfJson, h], h⟩
  · exact Or.inl (by simp [solveLetterOfJson, h])

/-- A letter-scan element is `null` or a letter A-E. -/
theorem solveLetterOfMatch_valid (m : String) :
    solveLetterOfMatch m = none ∨ ∃ l, solveLetterOfMatch m = some l ∧ l ∈ validLetters := by
  by_cases h : jsUpper (stripQuotes m) ∈ validLetters
  · exact Or.inr ⟨_, by simp [solveLetterOfMatch, h], h⟩
  · exact Or.inl (by simp [solveLetterOfMatch, h])

/-- Every element of a `parseSolveResponse` result is `null` or a letter A-E. -/
theorem parseSolveResponse_valid (text : String) (n : Nat) :
    ∀ x ∈ parseSolveResponse text n, x = none ∨ ∃ l, x = some l ∧ l ∈ validLetters := by
  intro x hx
  rcases parseSolveResponse_cases text n with ⟨arr, h⟩ | ⟨ms, h⟩ | h <;> rw [h] at hx
  · obtain ⟨a, _, rfl⟩ := List.mem_map.mp hx
    exact solveLetterOfJson_valid a
  · obtain ⟨m, _, rfl⟩ := List.mem_map.mp hx
    exact solveLetterOfMatch_valid m
  · exact Or.inl (List.eq_of_mem_replicate hx)

/-- Without a `[` character the bracket scan finds nothing. -/
theorem firstBracketMatch_eq_none (cs : List Char) (h : ∀ c ∈ cs, c ≠ '[') :
    firstBracketMatch cs = none := by
  induction cs with
  | nil => rfl
  | cons c rest ih =>
    simp only [firstBracketMatch]
    rw [if_neg (h c (List.mem_cons_self c rest))]
    exact ih (fun x hx => h x (List.mem_cons_of_mem c hx))

/-- Without any uppercase A-E character the fallback scan finds nothing. -/
theorem letterScan_eq_nil (fuel : Nat) (cs : List Char)
    (h : ∀ c ∈ cs, isSolveLetter c = false) : letterScan fuel cs = [] := by
  induction fuel generalizing cs with
  | zero => rfl
  | succ fuel ih =>
    cases cs with
    | nil => rfl
    | cons c rest =>
      have hc : isSolveLetter c = false := h c (List.mem_cons_self c rest)
      have hrest : ∀ x ∈ rest, isSolveLetter x = false :=
        fun x hx => h x (List.mem_cons_of_mem c hx)
      simp only [letterScan]
      by_cases hq : isQuote c = true
      · rw [if_pos hq]
        cases rest with
        | nil => rfl
        | cons l rest2 =>
          have hl : isSolveLetter l = false := hrest l (List.mem_cons_self l rest2)
          simp only [hl, Bool.false_eq_true, if_false]
          exact ih _ hrest
      · rw [if_neg hq, hc]
        simp only [Bool.false_eq_true, if_false]
        exact ih _ hrest

/-- C10: `parseSolveResponse` is total (a Lean function), returns at most
`expectedCount` entries each of which is `null` or a letter A-E; an input
without a JSON array (no `[` at all) and without any uppercase letter A-E
yields exactly `expectedCount` nulls; and the result can be strictly shorter
than `expectedCount` (it is not padded), e.g. a one-letter array against
expected count 3. -/
theorem c10_parse_solve_shape (text : String) (n : Nat) :
    (parseSolveResponse text n).length ≤ n ∧
    (∀ x ∈ parseSolveResponse text n, x = none ∨ ∃ l, x = some l ∧ l ∈ validLetters) ∧
    ((∀ c ∈ (jsTrim text).data, c ≠ '[' ∧ isSolveLetter c = false) →
      parseSolveResponse text n = List.replicate n none) ∧
    (parseSolveResponse "[\"A\"]" 3).length < 3 := by
  refine ⟨parseSolveResponse_length_le text n, parseSolveResponse_valid text n, ?_, by decide⟩
  intro h
  unfold parseSolveResponse
  dsimp only
  rw [firstBracketMatch_eq_none _ (fun c hc => (h c hc).1)]
  rw [letterScan_eq_nil _ _ (fun c hc => (h c hc).2)]
  simp

/-- C10 witness: the null-fill clause applied to the concrete input `"zzz"`. -/
theorem c10_parse_solve_shape_witness : parseSolveResponse "zzz" 2 = List.replicate 2 none :=
  (c10_parse_solve_shape "zzz" 2).2.2.1 (by decide)

/-- A key absent from the map looks up to `none`. -/
theorem mapGet_eq_none (m : List (String × String)) (k : String)
    (h : ∀ p ∈ m, p.1 ≠ k) : mapGet m k = none := by
  unfold mapGet
  have : List.find? (fun p => p.1 == k) m.reverse = none := by
    rw [List.find?_eq_none]
    intro p hp
    simpa using h p (List.mem_reverse.mp hp)
  rw [this]
  rfl

/-- Lookup skips a prefix that never binds the key. -/
theorem mapGet_append_right2 (m1 m2 : List (String × String)) (k : String)
    (h : ∀ p ∈ m1, p.1 ≠ k) : mapGet (m1 ++ m2) k = mapGet m2 k := by
  unfold mapGet
  rw [List.reverse_append, List.find?_append]
  have : List.find? (fun p => p.1 == k) m1.reverse = none := by
    rw [List.find?_eq_none]
    intro p hp
    simpa using h p (List.mem_reverse.mp hp)
  rw [this]
  cases List.find? (fun p => p.1 == k) m2.reverse <;> rfl

/-- Lookup ignores a suffix that never binds the key. -/
theorem mapGet_append_left (m1 m2 : List (String × String)) (k : String)
    (h : ∀ p ∈ m2, p.1 ≠ k) : mapGet (m1 ++ m2) k = mapGet m1 k := by
  unfold mapGet
  rw [List.reverse_append, List.find?_append]
  have : List.find? (fun p => p.1 == k) m2.reverse = none := by
    rw [List.find?_eq_none]
    intro p hp
    simpa using h p (List.mem_reverse.mp hp)
  rw [this]
  rfl

/-- Lookup of the only binding. -/
theorem mapGet_singleton (k : String) (v : String) : mapGet [(k, v)] k = some v := by
  simp [mapGet]

/-- Every entry a batch contributes is keyed by one of its question ids. -/
theorem batchEntry_key_mem (answers : List (Option String)) (k : Nat)
    (xs : List SolveQuestionRow) (pr : String × String)
    (h : pr ∈ (List.enumFrom k xs).filterMap (batchEntry answers)) :
    pr.1 ∈ xs.map SolveQuestionRow.id := by
  obtain ⟨p, hp, he⟩ := List.mem_filterMap.mp h
  have hsnd : p.2 ∈ xs := by
    have := List.enumFrom_map_snd k xs
    exact this ▸ List.mem_map_of_mem Prod.snd hp
  unfold batchEntry at he
  rcases ha : answers.get? p.1 with _ | oa
  · rw [ha] at he
    cases he
  · rcases oa with _ | a
    · rw [ha] at he
      cases he
    · rw [ha] at he
      dsimp only at he
      by_cases hv : a ∈ validLetters
      · rw [if_pos hv] at he
        injection he with he2
        rw [← he2]
        exact List.mem_map_of_mem _ hsnd
      · rw [if_neg hv] at he
        cases he

/-- Positional characterization of one batch's entries: with distinct ids,
question `j` of the batch looks up to exactly position `m + j` of the parsed
answer list (`none` when that position is missing or invalid). -/
theorem mapGet_filterMap_batchEntry (answers : List (Option String))
    (b : List SolveQuestionRow) (m j : Nat) (q : SolveQuestionRow)
    (hnd : (b.map SolveQuestionRow.id).Nodup) (hj : b.get? j = some q) :
    mapGet ((List.enumFrom m b).filterMap (batchEntry answers)) q.id =
      (match answers.get? (m + j) with
       | some (some a) => if a ∈ validLetters then some a else none
       | _ => none) := by
  induction b generalizing m j with
  | nil => simp at hj
  | cons x xs ih =>
    rw [List.map_cons, List.nodup_cons] at hnd
    obtain ⟨hxid, hnd'⟩ := hnd
    rw [List.enumFrom_cons]
    cases j with
    | zero =>
      rw [List.get?_cons_zero] at hj
      injection hj with hq
      have hq2 := hq.symm
      subst hq2
      have htail : ∀ p ∈ (List.enumFrom (m + 1) xs).filterMap (batchEntry answers),
          p.1 ≠ q.id := by
        intro p hp hpk
        exact hxid (hpk ▸ batchEntry_key_mem answers (m + 1) xs p hp)
      rcases hbe : batchEntry answers (m, q) with _ | pr
      · rw [List.filterMap_cons_none hbe, mapGet_eq_none _ _ htail]
        unfold batchEntry at hbe
        rcases ha : answers.get? m with _ | oa
        · rw [Nat.add_zero, ha]
        · rcases oa with _ | a
          · rw [Nat.add_zero, ha]
          · rw [ha] at hbe
            dsimp only at hbe
            rw [Nat.add_zero, ha]
            by_cases hv : a ∈ validLetters
            · rw [if_pos hv] at hbe
              cases hbe
            · dsimp only
              rw [if_neg hv]
      · rw [List.filterMap_cons_some hbe]
        unfold batchEntry at hbe
        rcases ha : answers.get? m with _ | oa
        · rw [ha] at hbe
          cases hbe
        · rcases oa with _ | a
          · rw [ha] at hbe
            cases hbe
          · rw [ha] at hbe
            dsimp only at hbe
            by_cases hv : a ∈ validLetters
            · rw [if_pos hv] at hbe
              injection hbe with hpr
              subst hpr
              rw [show ((q.id, a) :: (List.enumFrom (m + 1) xs).filterMap (batchEntry answers)) =
                [(q.id, a)] ++ (List.enumFrom (m + 1) xs).filterMap (batchEntry answers) from rfl]
              rw [mapGet_append_left _ _ _ htail, mapGet_singleton]
              rw [Nat.add_zero, ha]
              dsimp only
              rw [if_pos hv]
            · rw [if_neg hv] at hbe
              cases hbe
    | succ j' =>
      rw [List.get?_cons_succ] at hj
      have hqmem : q ∈ xs := List.get?_mem hj
      have hne : x.id ≠ q.id := by
        intro he
        exact hxid (he ▸ List.mem_map_of_mem _ hqmem)
      have harith : m + 1 + j' = m + (j' + 1) := by omega
      rcases hbe : batchEntry answers (m, x) with _ | pr
      · rw [List.filterMap_cons_none hbe]
        rw [ih (m + 1) j' hnd' hj, harith]
      · rw [List.filterMap_cons_some hbe]
        have hprk : pr.1 = x.id := by
          unfold batchEntry at hbe
          rcases ha : answers.get? m with _ | oa
          · rw [ha] at hbe
            cases hbe
          · rcases oa with _ | a
            · rw [ha] at hbe
              cases hbe
            · rw [ha] at hbe
              dsimp only at hbe
              by_cases hv : a ∈ validLetters
              · rw [if_pos hv] at hbe
                injection hbe with hpr
                rw [← hpr]
              · rw [if_neg hv] at hbe
                cases hbe
        rw [show (pr :: (List.enumFrom (m + 1) xs).filterMap (batchEntry answers)) =
          [pr] ++ (List.enumFrom (m + 1) xs).filterMap (batchEntry answers) from rfl]
        rw [mapGet_append_right2 _ _ _ (by
          intro p hp
          rw [List.mem_singleton] at hp
          rw [hp, hprk]
          exact hne)]
        rw [ih (m + 1) j' hnd' hj, harith]

/-- `batchAssign` characterized positionally (enumeration starts at 0). -/
theorem mapGet_batchAssign (resp : Option String) (b : List SolveQuestionRow)
    (j : Nat) (q : SolveQuestionRow)
    (hnd : (b.map SolveQuestionRow.id).Nodup) (hj : b.get? j = some q) :
    mapGet (batchAssign resp b) q.id =
      (match resp with
       | none => none
       | some text =>
         match (parseSolveResponse text b.length).get? j with
         | some (some a) => if a ∈ validLetters then some a else none
         | _ => none) := by
  cases resp with
  | none => rfl
  | some text =>
    unfold batchAssign
    dsimp only
    rw [show b.enum = List.enumFrom 0 b from rfl]
    rw [mapGet_filterMap_batchEntry _ b 0 j q hnd hj]
    rw [Nat.zero_add]

/-- Every entry of `batchAssign` is keyed by a question id of its batch. -/
theorem batchAssign_key_mem (resp : Option String) (b : List SolveQuestionRow)
    (pr : String × String) (h : pr ∈ batchAssign resp b) :
    pr.1 ∈ b.map SolveQuestionRow.id := by
  cases resp with
  | none => cases h
  | some text =>
    unfold batchAssign at h
    dsimp only at h
    rw [show b.enum = List.enumFrom 0 b from rfl] at h
    exact batchEntry_key_mem _ 0 b pr h

/-- Across batches: with globally distinct ids, the question at position `j`
of chunk `k` looks up to the value determined solely by chunk `k`'s own
response. -/
theorem mapGet_flatMap_chunks (responses : Nat → Option String)
    (cl : List (List SolveQuestionRow)) (m k : Nat) (batch : List SolveQuestionRow)
    (j : Nat) (q : SolveQuestionRow)
    (hnd : (cl.flatten.map SolveQuestionRow.id).Nodup)
    (hbk : cl.get? k = some batch) (hj : batch.get? j = some q) :
    mapGet ((List.enumFrom m cl).flatMap (fun p => batchAssign (responses p.1) p.2)) q.id =
      (match responses (m + k) with
       | none => none
       | some text =>
         match (parseSolveResponse text batch.length).get? j with
         | some (some a) => if a ∈ validLetters then some a else none
         | _ => none) := by
  induction cl generalizing m k with
  | nil => simp at hbk
  | cons c cls ih =>
    rw [List.enumFrom_cons, List.flatMap_cons]
    rw [List.flatten_cons, List.map_append, List.nodup_append] at hnd
    obtain ⟨hnd1, hnd2, hdisj⟩ := hnd
    have hqb : q ∈ batch := List.get?_mem hj
    cases k with
    | zero =>
      rw [List.get?_cons_zero] at hbk
      injection hbk with hc
      have hc2 := hc.symm
      subst hc2
      have hqid : q.id ∈ batch.map SolveQuestionRow.id := List.mem_map_of_mem _ hqb
      have htail : ∀ p ∈ (List.enumFrom (m + 1) cls).flatMap
          (fun p => batchAssign (responses p.1) p.2), p.1 ≠ q.id := by
        intro p hp hpk
        obtain ⟨pr2, hmem2, hin2⟩ := List.mem_flatMap.mp hp
        have hk1 : p.1 ∈ pr2.2.map SolveQuestionRow.id := batchAssign_key_mem _ _ _ hin2
        have hsnd : pr2.2 ∈ cls := by
          have := List.enumFrom_map_snd (m + 1) cls
          exact this ▸ List.mem_map_of_mem Prod.snd hmem2
        have hk2 : p.1 ∈ cls.flatten.map SolveQuestionRow.id := by
          obtain ⟨r, hr, hrid⟩ := List.mem_map.mp hk1
          rw [← hrid]
          exact List.mem_map_of_mem _ (List.mem_flatten.mpr ⟨pr2.2, hsnd, hr⟩)
        exact hdisj (hpk ▸ hqid) hk2
      rw [mapGet_append_left _ _ _ htail]
      rw [mapGet_batchAssign _ _ j q hnd1 hj, Nat.add_zero]
    | succ k' =>
      rw [List.get?_cons_succ] at hbk
      have hbmem : batch ∈ cls := List.get?_mem hbk
      have hqid2 : q.id ∈ cls.flatten.map SolveQuestionRow.id :=
        List.mem_map_of_mem _ (List.mem_flatten.mpr ⟨batch, hbmem, hqb⟩)
      have hhead : ∀ p ∈ batchAssign (responses m) c, p.1 ≠ q.id := by
        intro p hp hpk
        have hk1 : p.1 ∈ c.map SolveQuestionRow.id := batchAssign_key_mem _ _ _ hp
        exact hdisj hk1 (hpk ▸ hqid2)
      rw [mapGet_append_right2 _ _ _ hhead]
      have harith : m + 1 + k' = m + (k' + 1) := by omega
      rw [ih (m + 1) k' hnd2 hbk, harith]

end BlueBook

namespace BlueBook

/-- Flattening the chunks gives back the original list. -/
theorem chunksOfAux_flatten (fuel : Nat) (l : List SolveQuestionRow) (hf : l.length ≤ fuel) :
    (chunksOfAux BATCH_SIZE fuel l).flatten = l := by
  induction fuel generalizing l with
  | zero =>
    have : l = [] := List.eq_nil_of_length_eq_zero (Nat.le_zero.mp hf)
    simp [this, chunksOfAux]
  | succ fuel ih =>
    cases l with
    | nil => simp [chunksOfAux]
    | cons x xs =>
      simp only [chunksOfAux]
      rw [if_neg (by decide : ¬(BATCH_SIZE = 0))]
      simp only [List.flatten_cons]
      rw [ih (List.drop BATCH_SIZE (x :: xs))
        (by
          simp only [List.length_drop, List.length_cons] at hf ⊢
          have h8 : BATCH_SIZE = 8 := rfl
          omega)]
      exact List.take_append_drop BATCH_SIZE (x :: xs)

/-- Flattening the 8-chunks gives back the original list. -/
theorem chunksOf_flatten (l : List SolveQuestionRow) : (chunksOf BATCH_SIZE l).flatten = l :=
  chunksOfAux_flatten l.length l (Nat.le_refl _)

/-- Characterization of the whole resolution loop's AI-answer map: each
question's entry is determined by its own batch's response and its own
position within the batch. -/
theorem mapGet_buildAiAnswerMap (env : CompleteEnv) (needing : List SolveQuestionRow)
    (k : Nat) (batch : List SolveQuestionRow) (j : Nat) (q : SolveQuestionRow)
    (hnd : (needing.map SolveQuestionRow.id).Nodup)
    (hkey : (env.geminiApiKey.map jsTrim).getD "" ≠ "")
    (h0 : 0 < needing.length)
    (hbk : (chunksOf BATCH_SIZE needing).get? k = some batch)
    (hj : batch.get? j = some q) :
    mapGet (buildAiAnswerMap env needing) q.id =
      (match env.batchResponses k with
       | none => none
       | some text =>
         match (parseSolveResponse text batch.length).get? j with
         | some (some a) => if a ∈ validLetters then some a else none
         | _ => none) := by
  unfold buildAiAnswerMap
  rw [if_pos ⟨h0, hkey⟩]
  have hnd' : ((chunksOf BATCH_SIZE needing).flatten.map SolveQuestionRow.id).Nodup := by
    rw [chunksOf_flatten]
    exact hnd
  have hmain := mapGet_flatMap_chunks env.batchResponses (chunksOf BATCH_SIZE needing)
    0 k batch j q hnd' hbk hj
  rw [show (chunksOf BATCH_SIZE needing).enum =
    List.enumFrom 0 (chunksOf BATCH_SIZE needing) from rfl]
  rw [hmain, Nat.zero_add]

/-- C5: when a batch response parses to fewer valid letters than the batch
has questions, (1) every question at a position at or past the end of the
parsed list ends with a null (unresolved) AI answer, (2) every parsed letter
is assigned to the question at its own position — no shifting — and (3) any
other batch's questions are mapped from that batch's own response only,
unaffected by this batch. -/
theorem c5_positional_mapping (env : CompleteEnv) (needing : List SolveQuestionRow)
    (k : Nat) (batch : List SolveQuestionRow) (text : String)
    (hnd : (needing.map SolveQuestionRow.id).Nodup)
    (hkey : (env.geminiApiKey.map jsTrim).getD "" ≠ "")
    (h0 : 0 < needing.length)
    (hbk : (chunksOf BATCH_SIZE needing).get? k = some batch)
    (hresp : env.batchResponses k = some text)
    (hshort : (parseSolveResponse text batch.length).length < batch.length) :
    (∀ j q, batch.get? j = some q →
      (parseSolveResponse text batch.length).length ≤ j →
      mapGet (buildAiAnswerMap env needing) q.id = none) ∧
    (∀ j q a, batch.get? j = some q →
      (parseSolveResponse text batch.length).get? j = some (some a) →
      mapGet (buildAiAnswerMap env needing) q.id = some a) ∧
    (∀ k' batch', k' ≠ k → (chunksOf BATCH_SIZE needing).get? k' = some batch' →
      ∀ j' q', batch'.get? j' = some q' →
        mapGet (buildAiAnswerMap env needing) q'.id =
          (match env.batchResponses k' with
           | none => none
           | some t =>
             match (parseSolveResponse t batch'.length).get? j' with
             | some (some a) => if a ∈ validLetters then some a else none
             | _ => none)) := by
  refine ⟨?_, ?_, ?_⟩
  · intro j q hj hlen
    rw [mapGet_buildAiAnswerMap env needing k batch j q hnd hkey h0 hbk hj, hresp]
    dsimp only
    have hn : (parseSolveResponse text batch.length).get? j = none := by
      rw [List.get?_eq_none]
      exact hlen
    rw [hn]
  · intro j q a hj ha
    rw [mapGet_buildAiAnswerMap env needing k batch j q hnd hkey h0 hbk hj, hresp]
    dsimp only
    rw [ha]
    have hmem : some a ∈ parseSolveResponse text batch.length := by
      exact List.get?_mem ha
    rcases parseSolveResponse_valid text batch.length _ hmem with h | ⟨l, hl, hlv⟩
    · cases h
    · injection hl with hla
      dsimp only
      rw [if_pos (hla ▸ hlv)]
  · intro k' batch' hkne hbk' j' q' hj'
    exact mapGet_buildAiAnswerMap env needing k' batch' j' q' hnd hkey h0 hbk' hj'

/-- C5 witness: nine questions, first batch of eight answered by
`["A","B"]` — position 0 gets A, position 2 gets null, and the second
batch's question still gets its own answer C. -/
theorem c5_positional_mapping_witness :
    mapGet (buildAiAnswerMap c5env c5needing) (mkSolveQ "q3").id = none ∧
    mapGet (buildAiAnswerMap c5env c5needing) (mkSolveQ "q1").id = some "A" ∧
    mapGet (buildAiAnswerMap c5env c5needing) (mkSolveQ "q9").id = some "C" := by
  have h := c5_positional_mapping c5env c5needing 0 c5batch "[\"A\",\"B\"]"
    (by decide) (by decide) (by decide) (by decide) (by decide) (by decide)
  refine ⟨h.1 2 (mkSolveQ "q3") (by decide) (by decide),
          h.2.1 0 (mkSolveQ "q1") "A" (by decide) (by decide), ?_⟩
  rw [h.2.2 1 [mkSolveQ "q9"] (by decide) (by decide) 0 (mkSolveQ "q9") (by decide)]
  decide

end BlueBook
